import Mathlib

/-!
Verification development for the flight/combat simulation core
(React Three Fiber sources: PlaneController.tsx, WeaponSystem, UFOManager.tsx,
GameManager, Projectile.tsx).

Numbers are modelled as exact reals.  The three.js math that the sources use
(Vector3, Quaternion, MathUtils) is embedded first, translated from the three.js
implementations; the per-frame `useFrame` bodies of each component are embedded
as pure state-to-state functions.  React `useState` setters are modelled by the
value the state has at the next render (the last setter call of a tick wins),
and `useRef` cells as ordinary record fields.  The Euler-angle read-back that
`PlaneController` performs from the plane quaternion at the start of each frame
(`setFromQuaternion` with order YXZ) is the identity on the stored angles in
exact arithmetic while pitch stays strictly between -pi/2 and pi/2 (which the
pitch clamp at pi/3 guarantees), so the model keeps (pitch, yaw, roll) directly.
-/

noncomputable section

namespace three

/-- three.js `Vector3`. -/
structure Vector3 where
  x : ℝ
  y : ℝ
  z : ℝ
deriving DecidableEq

namespace Vector3

/-- three.js `Vector3.add`. -/
def add (v w : Vector3) : Vector3 := ⟨v.x + w.x, v.y + w.y, v.z + w.z⟩

/-- three.js `Vector3.sub`. -/
def sub (v w : Vector3) : Vector3 := ⟨v.x - w.x, v.y - w.y, v.z - w.z⟩

/-- three.js `Vector3.multiplyScalar`. -/
def multiplyScalar (v : Vector3) (s : ℝ) : Vector3 := ⟨v.x * s, v.y * s, v.z * s⟩

/-- three.js `Vector3.lengthSq`. -/
def lengthSq (v : Vector3) : ℝ := v.x * v.x + v.y * v.y + v.z * v.z

/-- three.js `Vector3.length`. -/
def length (v : Vector3) : ℝ := Real.sqrt v.lengthSq

/-- three.js `Vector3.distanceToSquared`. -/
def distanceToSquared (v w : Vector3) : ℝ :=
  (v.x - w.x) * (v.x - w.x) + (v.y - w.y) * (v.y - w.y) + (v.z - w.z) * (v.z - w.z)

/-- three.js `Vector3.distanceTo`. -/
def distanceTo (v w : Vector3) : ℝ := Real.sqrt (v.distanceToSquared w)

/-- three.js `Vector3.normalize`: divides by `length || 1`, so the zero vector
(whose length reads as falsy 0) is divided by 1 and kept unchanged. -/
def normalize (v : Vector3) : Vector3 :=
  v.multiplyScalar (1 / (if v.length = 0 then 1 else v.length))

/-- three.js `Vector3.clamp` (componentwise `max( min.x, min( max.x, x ) )`),
as used by `Box3.clampPoint`. -/
def clampVec (v mn mx : Vector3) : Vector3 :=
  ⟨max mn.x (min mx.x v.x), max mn.y (min mx.y v.y), max mn.z (min mx.z v.z)⟩

end Vector3

/-- three.js `Quaternion` (x, y, z, w). -/
structure Quaternion where
  x : ℝ
  y : ℝ
  z : ℝ
  w : ℝ

/-- three.js `Quaternion.setFromEuler` for rotation order `'YXZ'`:
the angle arguments are the Euler x (pitch), y (yaw), z (roll) angles. -/
def setFromEulerYXZ (ex ey ez : ℝ) : Quaternion :=
  let c1 := Real.cos (ex / 2)
  let c2 := Real.cos (ey / 2)
  let c3 := Real.cos (ez / 2)
  let s1 := Real.sin (ex / 2)
  let s2 := Real.sin (ey / 2)
  let s3 := Real.sin (ez / 2)
  { x := s1 * c2 * c3 + c1 * s2 * s3
    y := c1 * s2 * c3 - s1 * c2 * s3
    z := c1 * c2 * s3 - s1 * s2 * c3
    w := c1 * c2 * c3 + s1 * s2 * s3 }

/-- three.js `Vector3.applyQuaternion` (the `t = 2 cross(q, v)` form). -/
def applyQuaternion (v : Vector3) (q : Quaternion) : Vector3 :=
  let tx := 2 * (q.y * v.z - q.z * v.y)
  let ty := 2 * (q.z * v.x - q.x * v.z)
  let tz := 2 * (q.x * v.y - q.y * v.x)
  { x := v.x + q.w * tx + q.y * tz - q.z * ty
    y := v.y + q.w * ty + q.z * tx - q.x * tz
    z := v.z + q.w * tz + q.x * ty - q.y * tx }

namespace MathUtils

/-- three.js `MathUtils.clamp`: `Math.max( min, Math.min( max, value ) )`. -/
def clamp (value mn mx : ℝ) : ℝ := max mn (min mx value)

/-- three.js `MathUtils.lerp`: `( 1 - t ) * x + t * y`. -/
def lerp (x y t : ℝ) : ℝ := (1 - t) * x + t * y

theorem clamp_le (value mn mx : ℝ) (h : mn ≤ mx) : clamp value mn mx ≤ mx := by
  unfold clamp
  exact max_le h (min_le_left _ _)

theorem le_clamp (value mn mx : ℝ) : mn ≤ clamp value mn mx := le_max_left _ _

theorem lerp_zero_bounds {x b t : ℝ} (hb : 0 ≤ b) (hx : -b ≤ x) (hx2 : x ≤ b)
    (ht : 0 ≤ t) (ht2 : t ≤ 1) : -b ≤ lerp x 0 t ∧ lerp x 0 t ≤ b := by
  unfold lerp
  constructor <;> nlinarith

end MathUtils

end three

/-- First `while` loop of `normalizeAngle` in PlaneController.tsx:
`while (angle > Math.PI) angle -= 2 * Math.PI`. -/
def normLoop1 (angle : ℝ) : ℝ :=
  if Real.pi < angle then normLoop1 (angle - 2 * Real.pi) else angle
termination_by (⌈(angle - Real.pi) / (2 * Real.pi)⌉).toNat
decreasing_by
  have hpi : (0:ℝ) < 2 * Real.pi := by positivity
  have key : (angle - 2 * Real.pi - Real.pi) / (2 * Real.pi)
      = (angle - Real.pi) / (2 * Real.pi) - 1 := by
    field_simp
    ring
  have hpos : (0:ℝ) < (angle - Real.pi) / (2 * Real.pi) :=
    div_pos (by linarith) hpi
  have h1 : 1 ≤ ⌈(angle - Real.pi) / (2 * Real.pi)⌉ := Int.ceil_pos.mpr hpos
  rw [key, Int.ceil_sub_one]
  omega

/-- Second `while` loop of `normalizeAngle`:
`while (angle < -Math.PI) angle += 2 * Math.PI`. -/
def normLoop2 (angle : ℝ) : ℝ :=
  if angle < -Real.pi then normLoop2 (angle + 2 * Real.pi) else angle
termination_by (⌈(-Real.pi - angle) / (2 * Real.pi)⌉).toNat
decreasing_by
  have hpi : (0:ℝ) < 2 * Real.pi := by positivity
  have key : (-Real.pi - (angle + 2 * Real.pi)) / (2 * Real.pi)
      = (-Real.pi - angle) / (2 * Real.pi) - 1 := by
    field_simp
    ring
  have hpos : (0:ℝ) < (-Real.pi - angle) / (2 * Real.pi) :=
    div_pos (by linarith) hpi
  have h1 : 1 ≤ ⌈(-Real.pi - angle) / (2 * Real.pi)⌉ := Int.ceil_pos.mpr hpos
  rw [key, Int.ceil_sub_one]
  omega

/-- `normalizeAngle` from PlaneController.tsx ("Normalizes an angle to the
range [-pi, pi]"): both while loops, in source order. -/
def normalizeAngle (angle : ℝ) : ℝ := normLoop2 (normLoop1 angle)

theorem normLoop1_of_le {x : ℝ} (h : x ≤ Real.pi) : normLoop1 x = x := by
  rw [normLoop1]
  simp [not_lt.mpr h]

theorem normLoop2_of_le {x : ℝ} (h : -Real.pi ≤ x) : normLoop2 x = x := by
  rw [normLoop2]
  simp [not_lt.mpr h]

theorem normLoop1_le (x : ℝ) : normLoop1 x ≤ Real.pi := by
  have main : ∀ n : ℕ, ∀ x : ℝ, (⌈(x - Real.pi) / (2 * Real.pi)⌉).toNat ≤ n →
      normLoop1 x ≤ Real.pi := by
    intro n
    induction n with
    | zero =>
      intro x hx
      rw [normLoop1]
      split
      · rename_i hgt
        exfalso
        have hpi : (0:ℝ) < 2 * Real.pi := by positivity
        have hpos : (0:ℝ) < (x - Real.pi) / (2 * Real.pi) := div_pos (by linarith) hpi
        have h1 : 1 ≤ ⌈(x - Real.pi) / (2 * Real.pi)⌉ := Int.ceil_pos.mpr hpos
        omega
      · exact le_of_not_lt (by assumption)
    | succ n ih =>
      intro x hx
      rw [normLoop1]
      split
      · rename_i hgt
        apply ih
        have hpi : (0:ℝ) < 2 * Real.pi := by positivity
        have key : (x - 2 * Real.pi - Real.pi) / (2 * Real.pi)
            = (x - Real.pi) / (2 * Real.pi) - 1 := by
          field_simp
          ring
        rw [key, Int.ceil_sub_one]
        omega
      · exact le_of_not_lt (by assumption)
  exact main (⌈(x - Real.pi) / (2 * Real.pi)⌉).toNat x le_rfl

theorem normLoop2_ge (x : ℝ) : -Real.pi ≤ normLoop2 x := by
  have main : ∀ n : ℕ, ∀ x : ℝ, (⌈(-Real.pi - x) / (2 * Real.pi)⌉).toNat ≤ n →
      -Real.pi ≤ normLoop2 x := by
    intro n
    induction n with
    | zero =>
      intro x hx
      rw [normLoop2]
      split
      · rename_i hlt
        exfalso
        have hpi : (0:ℝ) < 2 * Real.pi := by positivity
        have hpos : (0:ℝ) < (-Real.pi - x) / (2 * Real.pi) := div_pos (by linarith) hpi
        have h1 : 1 ≤ ⌈(-Real.pi - x) / (2 * Real.pi)⌉ := Int.ceil_pos.mpr hpos
        omega
      · exact le_of_not_lt (by assumption)
    | succ n ih =>
      intro x hx
      rw [normLoop2]
      split
      · rename_i hlt
        apply ih
        have hpi : (0:ℝ) < 2 * Real.pi := by positivity
        have key : (-Real.pi - (x + 2 * Real.pi)) / (2 * Real.pi)
            = (-Real.pi - x) / (2 * Real.pi) - 1 := by
          field_simp
          ring
        rw [key, Int.ceil_sub_one]
        omega
      · exact le_of_not_lt (by assumption)
  exact main (⌈(-Real.pi - x) / (2 * Real.pi)⌉).toNat x le_rfl

theorem normLoop2_le {x : ℝ} (h : x ≤ Real.pi) : normLoop2 x ≤ Real.pi := by
  have main : ∀ n : ℕ, ∀ x : ℝ, (⌈(-Real.pi - x) / (2 * Real.pi)⌉).toNat ≤ n →
      x ≤ Real.pi → normLoop2 x ≤ Real.pi := by
    intro n
    induction n with
    | zero =>
      intro x hx hle
      rw [normLoop2]
      split
      · rename_i hlt
        exfalso
        have hpi : (0:ℝ) < 2 * Real.pi := by positivity
        have hgt0 : (0:ℝ) < Real.pi := Real.pi_pos
        have hpos : (0:ℝ) < (-Real.pi - x) / (2 * Real.pi) := div_pos (by linarith) hpi
        have h1 : 1 ≤ ⌈(-Real.pi - x) / (2 * Real.pi)⌉ := Int.ceil_pos.mpr hpos
        omega
      · exact hle
    | succ n ih =>
      intro x hx hle
      rw [normLoop2]
      split
      · rename_i hlt
        apply ih
        · have hpi : (0:ℝ) < 2 * Real.pi := by positivity
          have key : (-Real.pi - (x + 2 * Real.pi)) / (2 * Real.pi)
              = (-Real.pi - x) / (2 * Real.pi) - 1 := by
            field_simp
            ring
          rw [key, Int.ceil_sub_one]
          omega
        · have hgt0 : (0:ℝ) < Real.pi := Real.pi_pos
          linarith
      · exact hle
  exact main (⌈(-Real.pi - x) / (2 * Real.pi)⌉).toNat x le_rfl h

theorem normalizeAngle_ge (x : ℝ) : -Real.pi ≤ normalizeAngle x :=
  normLoop2_ge _

theorem normalizeAngle_le (x : ℝ) : normalizeAngle x ≤ Real.pi :=
  normLoop2_le (normLoop1_le _)

theorem normalizeAngle_of_mem {x : ℝ} (h1 : -Real.pi ≤ x) (h2 : x ≤ Real.pi) :
    normalizeAngle x = x := by
  unfold normalizeAngle
  rw [normLoop1_of_le h2, normLoop2_of_le h1]

theorem normalizeAngle_idem (x : ℝ) :
    normalizeAngle (normalizeAngle x) = normalizeAngle x :=
  normalizeAngle_of_mem (normalizeAngle_ge x) (normalizeAngle_le x)

namespace PlaneController

open three

/-- Physics constants of PlaneController.tsx. -/
def MAX_SPEED : ℝ := 50

def MIN_SPEED : ℝ := 10

def ACCELERATION : ℝ := 10

def PITCH_SENSITIVITY : ℝ := 0.8

def ROLL_SENSITIVITY : ℝ := 2.0

def TURN_SENSITIVITY : ℝ := 1.5

def AUTO_LEVEL_SPEED : ℝ := 2

def MAX_PITCH_ANGLE : ℝ := Real.pi / 3

def MAX_ROLL_ANGLE : ℝ := Real.pi / 4

def PLANE_COLLISION_RADIUS : ℝ := 2

def GROUND_LEVEL : ℝ := 1

def COLLISION_COOLDOWN : ℝ := 1000

/-- An entry of `BUILDING_REGISTRY`: `{ position, size }`. -/
structure Building where
  position : Vector3
  size : Vector3

/-- `BUILDING_REGISTRY`, an id-keyed map modelled as an association list. -/
abbrev Registry := List (String × Building)

/-- `registerBuilding` / `BUILDING_REGISTRY.set(id, { position, size })`:
an idempotent upsert keyed by id. -/
def registerBuilding (reg : Registry) (position size : Vector3) (id : String) : Registry :=
  (id, ⟨position, size⟩) :: reg.filter (fun e => ¬ e.1 = id)

/-- `unregisterBuilding` / `BUILDING_REGISTRY.delete(id)`. -/
def unregisterBuilding (reg : Registry) (id : String) : Registry :=
  reg.filter (fun e => ¬ e.1 = id)

/-- The `Box3` built in `checkBuildingCollisions`: min corner `position - size/2`. -/
def buildingBoxMin (b : Building) : Vector3 :=
  ⟨b.position.x - b.size.x / 2, b.position.y - b.size.y / 2, b.position.z - b.size.z / 2⟩

/-- The `Box3` built in `checkBuildingCollisions`: max corner `position + size/2`. -/
def buildingBoxMax (b : Building) : Vector3 :=
  ⟨b.position.x + b.size.x / 2, b.position.y + b.size.y / 2, b.position.z + b.size.z / 2⟩

/-- three.js `Box3.intersectsSphere`: clamp the sphere center into the box and
compare squared distance with the squared radius. -/
def boxIntersectsSphere (bmin bmax center : Vector3) (radius : ℝ) : Bool :=
  decide ((Vector3.clampVec center bmin bmax).distanceToSquared center ≤ radius * radius)

/-- `checkBuildingCollisions(planePosition)`: the plane collider is a sphere of
radius `PLANE_COLLISION_RADIUS` centered at the plane position; returns whether
it intersects any registered building box. -/
def checkBuildingCollisions (reg : Registry) (planePosition : Vector3) : Bool :=
  reg.any (fun e =>
    boxIntersectsSphere (buildingBoxMin e.2) (buildingBoxMax e.2) planePosition
      PLANE_COLLISION_RADIUS)

/-- `checkGroundCollision(planePosition)`. -/
def checkGroundCollision (planePosition : Vector3) : Bool :=
  decide (planePosition.y - PLANE_COLLISION_RADIUS < GROUND_LEVEL)

/-- The two collision kinds, `'building' | 'ground'`. -/
inductive CollisionKind
  | building
  | ground
deriving DecidableEq

/-- The message `handleCollision` stores for each collision kind. -/
def collisionText : CollisionKind → String
  | .building => "Crashed into a building! Press R to reset"
  | .ground => "Crashed into the ground! Press R to reset"

/-- The PlaneController state: React state and refs of one render, plus the
(pitch, yaw, roll) rotation state (see the header note on the Euler read-back). -/
structure PlaneState where
  pitch : ℝ
  yaw : ℝ
  roll : ℝ
  speed : ℝ
  position : Vector3
  isColliding : Bool
  collisionMessage : String
  lastCollisionTime : ℝ

/-- Initial PlaneController state: `useState(30)` speed, start position
`(0, 30, -50)`, initial rotation `{ pitch: -0.1, yaw: 0, roll: 0 }`. -/
def initPlaneState : PlaneState :=
  { pitch := -0.1, yaw := 0, roll := 0, speed := 30, position := ⟨0, 30, -50⟩
    isColliding := false, collisionMessage := "", lastCollisionTime := 0 }

/-- `resetPlane()`: restores spawn pose and speed and clears collision state
(the last-collision timestamp ref is not reset). -/
def resetPlane (s : PlaneState) : PlaneState :=
  { pitch := -0.1, yaw := 0, roll := 0, speed := 30, position := ⟨0, 30, -50⟩
    isColliding := false, collisionMessage := ""
    lastCollisionTime := s.lastCollisionTime }

/-- `handleCollision(type)` at clock value `now = Date.now()`: rate-limited by
`COLLISION_COOLDOWN`; on acceptance sets the collision flag and message and cuts
speed to 30% of the render's `speed` value, floored at `MIN_SPEED`. -/
def handleCollision (s : PlaneState) (now : ℝ) (t : CollisionKind) : PlaneState :=
  if now - s.lastCollisionTime < COLLISION_COOLDOWN then s
  else
    { s with
      lastCollisionTime := now
      isColliding := true
      collisionMessage := collisionText t
      speed := max MIN_SPEED (s.speed * 0.3) }

/-- The keyboard state read by the frame handler. -/
structure Keys where
  w : Bool
  s : Bool
  a : Bool
  d : Bool
  q : Bool
  e : Bool

/-- Pitch input axis: `w` adds `+1`, `s` adds `-1`. -/
def inputPitch (k : Keys) : ℝ := (if k.w then 1 else 0) + (if k.s then -1 else 0)

/-- Roll input axis: `a` adds `-1`, `d` adds `+1`. -/
def inputRoll (k : Keys) : ℝ := (if k.a then -1 else 0) + (if k.d then 1 else 0)

/-- Speed input axis: `q` adds `+1`, `e` adds `-1`. -/
def inputSpeed (k : Keys) : ℝ := (if k.q then 1 else 0) + (if k.e then -1 else 0)

/-- `const clampedDelta = Math.min(delta, 0.1)`. -/
def clampedDelta (delta : ℝ) : ℝ := min delta 0.1

/-- The tick's new speed: `MathUtils.clamp(speed + speedInput, MIN_SPEED, MAX_SPEED)`. -/
def tickNewSpeed (s : PlaneState) (k : Keys) (delta : ℝ) : ℝ :=
  MathUtils.clamp (s.speed + inputSpeed k * ACCELERATION * clampedDelta delta)
    MIN_SPEED MAX_SPEED

/-- The tick's new pitch: accumulate-and-clamp while driven, auto-level lerp
toward 0 otherwise. -/
def tickPitch (s : PlaneState) (k : Keys) (delta : ℝ) : ℝ :=
  let pitchInput := inputPitch k * PITCH_SENSITIVITY * clampedDelta delta
  if pitchInput ≠ 0 then
    MathUtils.clamp (s.pitch + pitchInput) (-MAX_PITCH_ANGLE) MAX_PITCH_ANGLE
  else
    MathUtils.lerp s.pitch 0 (AUTO_LEVEL_SPEED * clampedDelta delta)

/-- The tick's new roll: accumulate-and-clamp while driven, auto-level lerp
toward 0 otherwise. -/
def tickRoll (s : PlaneState) (k : Keys) (delta : ℝ) : ℝ :=
  let rollInput := inputRoll k * ROLL_SENSITIVITY * clampedDelta delta
  if rollInput ≠ 0 then
    MathUtils.clamp (s.roll + rollInput) (-MAX_ROLL_ANGLE) MAX_ROLL_ANGLE
  else
    MathUtils.lerp s.roll 0 (AUTO_LEVEL_SPEED * clampedDelta delta)

/-- The tick's new yaw: the frame reads the stored yaw back through
`normalizeAngle` (line 232), couples banking into turning while rolling
(`yaw += -roll * TURN_SENSITIVITY * clampedDelta`), and normalizes again
(line 307). -/
def tickYaw (s : PlaneState) (k : Keys) (delta : ℝ) : ℝ :=
  let rollInput := inputRoll k * ROLL_SENSITIVITY * clampedDelta delta
  if rollInput ≠ 0 then
    normalizeAngle (normalizeAngle s.yaw
      + -(tickRoll s k delta) * TURN_SENSITIVITY * clampedDelta delta)
  else
    normalizeAngle (normalizeAngle s.yaw)

/-- The tick's forward direction: `(0,0,-1)` rotated by the YXZ-Euler
quaternion of the updated angles, then normalized. -/
def tickForward (s : PlaneState) (k : Keys) (delta : ℝ) : Vector3 :=
  (applyQuaternion ⟨0, 0, -1⟩
    (setFromEulerYXZ (tickPitch s k delta) (tickYaw s k delta) (tickRoll s k delta))).normalize

/-- The candidate position of the tick:
`position + forward * (newSpeed * clampedDelta)`. -/
def candidatePosition (s : PlaneState) (k : Keys) (delta : ℝ) : Vector3 :=
  s.position.add
    ((tickForward s k delta).multiplyScalar (tickNewSpeed s k delta * clampedDelta delta))

/-- The movement part of the frame: updated angles, speed and position.
The position copy at line 338 is unconditional, so the candidate position is
part of this state whether or not a collision was detected. -/
def tickMove (s : PlaneState) (k : Keys) (delta : ℝ) : PlaneState :=
  { s with
    pitch := tickPitch s k delta
    yaw := tickYaw s k delta
    roll := tickRoll s k delta
    speed := tickNewSpeed s k delta
    position := candidatePosition s k delta }

/-- The effect of `handleCollision` as it combines with the frame's earlier
`setSpeed(newSpeed)` call: React applies the last setter of the tick, and the
`speed` captured by the `handleCollision` closure is the render's (pre-tick)
value `preSpeed`.  Within the cooldown the call returns early and the earlier
`setSpeed(newSpeed)` stands. -/
def tickCollide (s2 : PlaneState) (preSpeed now : ℝ) (t : CollisionKind) : PlaneState :=
  if now - s2.lastCollisionTime < COLLISION_COOLDOWN then s2
  else
    { s2 with
      lastCollisionTime := now
      isColliding := true
      collisionMessage := collisionText t
      speed := max MIN_SPEED (preSpeed * 0.3) }

/-- One `useFrame` physics tick of PlaneController.tsx (lines 219-339): while
colliding, input processing and movement are skipped entirely; otherwise the
angles/speed/position are updated and the candidate position is tested against
the ground first, `else if` against the building registry. -/
def planeTick (reg : Registry) (s : PlaneState) (k : Keys) (delta now : ℝ) : PlaneState :=
  if s.isColliding then s
  else
    let s2 := tickMove s k delta
    if checkGroundCollision (candidatePosition s k delta) then
      tickCollide s2 s.speed now .ground
    else if checkBuildingCollisions reg (candidatePosition s k delta) then
      tickCollide s2 s.speed now .building
    else s2

/-- One frame's inputs: key state, `delta`, and the `Date.now()` clock value. -/
structure TickInput where
  keys : Keys
  delta : ℝ
  now : ℝ

/-- A run of consecutive frames. -/
def planeRun (reg : Registry) (s : PlaneState) (ticks : List TickInput) : PlaneState :=
  ticks.foldl (fun st t => planeTick reg st t.keys t.delta t.now) s

end PlaneController

namespace WeaponSystem

open three

/-- `PROJECTILE_RADIUS` of the WeaponSystem. -/
def PROJECTILE_RADIUS : ℝ := 0.3

/-- `UFO_RADIUS` of the WeaponSystem. -/
def UFO_RADIUS : ℝ := 8.0

/-- `cooldownPeriod` (milliseconds between shots). -/
def cooldownPeriod : ℝ := 200

/-- The pose the WeaponSystem reads from `planeRef.current`. -/
structure PlanePose where
  position : Vector3
  quaternion : Quaternion

/-- A projectile id `projectile-${Date.now()}-right|-left`, modelled as the
timestamp paired with the right-gun flag. -/
abbrev ProjectileId := ℝ × Bool

/-- `ProjectileData` (the `collider` sphere is omitted: the collision pass
compares `projectile.position`, not the collider, and the collider center is a
copy of the position). -/
structure ProjectileDataT (α : Type) where
  id : α
  position : Vector3
  direction : Vector3

/-- The WeaponSystem's own state: the projectile list and `lastFireTime`. -/
structure WSState where
  projectiles : List (ProjectileDataT ProjectileId)
  lastFireTime : ℝ

/-- Initial WeaponSystem state: `useState([])` and `useRef(0)`. -/
def initWSState : WSState := { projectiles := [], lastFireTime := 0 }

/-- `fireProjectile()` at clock value `now = Date.now()`: the cooldown check
and the `lastFireTime` update come BEFORE the `planeRef.current` guard, so a
fire attempt that passes the cooldown advances `lastFireTime` even when no
plane pose is available and nothing is spawned. -/
def fireProjectile (s : WSState) (now : ℝ) (planeRef : Option PlanePose) : WSState :=
  if now - s.lastFireTime < cooldownPeriod then s
  else
    match planeRef with
    | none => { s with lastFireTime := now }
    | some plane =>
      let planePosition := plane.position
      let forwardDirection := (applyQuaternion ⟨0, 0, -1⟩ plane.quaternion).normalize
      let offsetRight := applyQuaternion ⟨0.5, 0, 0⟩ plane.quaternion
      let offsetLeft := applyQuaternion ⟨-0.5, 0, 0⟩ plane.quaternion
      let rightPosition := planePosition.add offsetRight
      let leftPosition := planePosition.add offsetLeft
      { projectiles := s.projectiles ++
          [{ id := (now, true), position := rightPosition, direction := forwardDirection },
           { id := (now, false), position := leftPosition, direction := forwardDirection }]
        lastFireTime := now }

/-- A sequence of fire requests at the given clock values, with a fixed
plane-pose availability. -/
def fireRun (s : WSState) (planeRef : Option PlanePose) (times : List ℝ) : WSState :=
  times.foldl (fun st t => fireProjectile st t planeRef) s

/-- One projectile's step of the WeaponSystem position-update frame
(`position + direction * (70 * delta)`); the direction field is not touched. -/
def updateProjectile (delta : ℝ) (p : ProjectileDataT ProjectileId) :
    ProjectileDataT ProjectileId :=
  { p with position := p.position.add (p.direction.multiplyScalar (70 * delta)) }

/-- The WeaponSystem position-update frame. -/
def weaponAdvance (s : WSState) (delta : ℝ) : WSState :=
  { s with projectiles := s.projectiles.map (updateProjectile delta) }

/-- Accumulator of the per-tick collision pass: the `projectilesToRemove` and
`hitUFOs` sets, kept in insertion order (the hit position recorded with each
UFO id is the clone passed to the deferred `handleUFOHit`). -/
structure PassOut (α β : Type) where
  projectilesToRemove : List α
  hitUFOs : List (β × Vector3)

/-- The body of the inner `forEach` of the collision pass, for one projectile
against one UFO registry entry: skip when either is already consumed this tick,
then test `distance < PROJECTILE_RADIUS + UFO_RADIUS`. -/
def passUfo {α β : Type} [DecidableEq α] [DecidableEq β]
    (projectile : ProjectileDataT α) (st : PassOut α β) (ufo : β × Vector3) :
    PassOut α β :=
  if projectile.id ∈ st.projectilesToRemove ∨ ufo.1 ∈ st.hitUFOs.map Prod.fst then st
  else if projectile.position.distanceTo ufo.2 < PROJECTILE_RADIUS + UFO_RADIUS then
    { projectilesToRemove := st.projectilesToRemove ++ [projectile.id]
      hitUFOs := st.hitUFOs ++ [(ufo.1, ufo.2)] }
  else st

/-- The collision pass of the WeaponSystem `useFrame` (lines 61-107): for each
projectile, for each UFO registry entry, in list order. -/
def collisionPass {α β : Type} [DecidableEq α] [DecidableEq β]
    (projectiles : List (ProjectileDataT α)) (ufos : List (β × Vector3)) :
    PassOut α β :=
  projectiles.foldl (fun st p => ufos.foldl (passUfo p) st)
    { projectilesToRemove := [], hitUFOs := [] }

end WeaponSystem

namespace GameManager

open three

/-- `reportUFOHit` adds 100 to the score for each delivered hit event; the
deferred `handleUFOHit` calls are delivered in order after the pass. -/
def applyHitsScore {β : Type} (score : ℤ) (hits : List (β × Vector3)) : ℤ :=
  hits.foldl (fun sc _ => sc + 100) score

/-- Each delivered `handleUFOHit(ufoId, _)` removes that id from the UFO
collection/registry. -/
def applyHitsUfos {β : Type} [DecidableEq β] (ufos : List (β × Vector3))
    (hits : List (β × Vector3)) : List (β × Vector3) :=
  hits.foldl (fun us h => us.filter (fun v => ¬ v.1 = h.1)) ufos

end GameManager

namespace UFOManager

open three

/-- `MIN_ALTITUDE` of UFOManager.tsx. -/
def MIN_ALTITUDE : ℝ := 30

/-- `ALTITUDE_VARIATION` of UFOManager.tsx. -/
def ALTITUDE_VARIATION : ℝ := 10

/-- `SPAWN_DISTANCE` of UFOManager.tsx. -/
def SPAWN_DISTANCE : ℝ := 200

/-- `UFOData` of UFOManager.tsx; the id `ufo-${Date.now()}` is modelled as the
timestamp. -/
structure UFOData where
  id : ℝ
  position : Vector3
  scale : ℝ
  targetPosition : Vector3
  lastUpdateTime : ℝ
  randomDirection : Vector3

/-- The `Math.random()` draws consumed by one spawn, each in [0, 1). -/
structure SpawnRandom where
  rAngle : ℝ
  rAltitude : ℝ
  rScale : ℝ
  rDirX : ℝ
  rDirY : ℝ
  rDirZ : ℝ

/-- The UFO spawned by the spawn branch of the UFOManager `useFrame`
(lines 143-172). -/
def newUfo (player : Vector3) (r : SpawnRandom) (now : ℝ) : UFOData :=
  let angle := r.rAngle * Real.pi * 2
  let xPos := player.x + Real.cos angle * SPAWN_DISTANCE
  let zPos := player.z + Real.sin angle * SPAWN_DISTANCE
  let yPos := MIN_ALTITUDE + r.rAltitude * ALTITUDE_VARIATION
  let position : Vector3 := ⟨xPos, yPos, zPos⟩
  { id := now
    position := position
    scale := 1.5 + r.rScale * 0.6
    targetPosition := position
    lastUpdateTime := 0
    randomDirection :=
      Vector3.normalize ⟨(r.rDirX - 0.5) * 2, r.rDirY - 0.5, (r.rDirZ - 0.5) * 2⟩ }

/-- The spawn-relevant UFOManager state: the UFO list and the
`timeSinceLastSpawn` ref. -/
structure UMState where
  ufos : List UFOData
  timeSinceLastSpawn : ℝ

/-- The spawn logic of the UFOManager `useFrame` (lines 139-173):
`timeSinceLastSpawn += delta`, then spawn exactly one UFO when
`ufos.length < 5 && timeSinceLastSpawn > 2`, resetting the timer. -/
def spawnUpdate (s : UMState) (delta : ℝ) (player : Vector3) (r : SpawnRandom)
    (now : ℝ) : UMState :=
  let t := s.timeSinceLastSpawn + delta
  if s.ufos.length < 5 ∧ 2 < t then
    { ufos := s.ufos ++ [newUfo player r now], timeSinceLastSpawn := 0 }
  else
    { s with timeSinceLastSpawn := t }

end UFOManager

section Claims

open three PlaneController WeaponSystem GameManager UFOManager

/-- C7: collision handling is rate-limited: a first accepted collision
detection at `now1` transitions into the colliding state and reduces the speed
once; a second detection at `now2` within `COLLISION_COOLDOWN` of the first is
silently dropped, changing nothing. -/
theorem c7_collision_rate_limited (s : PlaneState) (now1 now2 : ℝ)
    (k1 k2 : CollisionKind)
    (h1 : ¬ now1 - s.lastCollisionTime < COLLISION_COOLDOWN)
    (h2 : now2 - now1 < COLLISION_COOLDOWN) :
    handleCollision (handleCollision s now1 k1) now2 k2 = handleCollision s now1 k1 ∧
    (handleCollision s now1 k1).isColliding = true ∧
    (handleCollision s now1 k1).speed = max MIN_SPEED (s.speed * 0.3) := by
  unfold handleCollision
  rw [if_neg h1]
  refine ⟨?_, rfl, rfl⟩
  simp only
  rw [if_pos h2]

/-- Witness for C7 at a concrete input: first collision at t = 2000 ms from the
initial state, second at t = 2500 ms. -/
theorem c7_witness :
    handleCollision (handleCollision initPlaneState 2000 .ground) 2500 .building
      = handleCollision initPlaneState 2000 .ground ∧
    (handleCollision initPlaneState 2000 .ground).isColliding = true ∧
    (handleCollision initPlaneState 2000 .ground).speed
      = max MIN_SPEED (initPlaneState.speed * 0.3) :=
  c7_collision_rate_limited initPlaneState 2000 2500 .ground .building
    (by norm_num [initPlaneState, COLLISION_COOLDOWN])
    (by norm_num [COLLISION_COOLDOWN])

/-- C9 (counterexample to the claim as stated): a fire request at t = 1000 ms
with no plane pose available spawns nothing, but the last-fire timestamp is NOT
left unchanged — it advances from 0 to 1000 — and a subsequent fire request at
t = 1100 ms with the pose available is rejected against the failed attempt,
although no fire was ever accepted. -/
theorem c9_counterexample :
    (fireProjectile initWSState 1000 none).projectiles = [] ∧
    (fireProjectile initWSState 1000 none).lastFireTime = 1000 ∧
    initWSState.lastFireTime = 0 ∧
    (fireProjectile (fireProjectile initWSState 1000 none) 1100
        (some ⟨⟨0, 0, 0⟩, ⟨0, 0, 0, 1⟩⟩)).projectiles = [] := by
  have h1 : fireProjectile initWSState 1000 none
      = { projectiles := [], lastFireTime := 1000 } := by
    unfold fireProjectile initWSState
    norm_num [cooldownPeriod]
  refine ⟨by rw [h1], by rw [h1], rfl, ?_⟩
  rw [h1]
  unfold fireProjectile
  norm_num [cooldownPeriod]

/-- C9 (amended): a fire request processed without an available plane pose
spawns no projectiles; but when the cooldown had elapsed the last-fire
timestamp is still advanced to the request time (the timestamp update precedes
the pose guard), so the next request is judged against this failed attempt.
Within the cooldown the request changes nothing. -/
theorem c9_fire_no_pose :
    (∀ (s : WSState) (now : ℝ), ¬ now - s.lastFireTime < cooldownPeriod →
      (fireProjectile s now none).projectiles = s.projectiles ∧
      (fireProjectile s now none).lastFireTime = now) ∧
    (∀ (s : WSState) (now : ℝ), now - s.lastFireTime < cooldownPeriod →
      fireProjectile s now none = s) := by
  constructor
  · intro s now h
    unfold fireProjectile
    rw [if_neg h]
    exact ⟨rfl, rfl⟩
  · intro s now h
    unfold fireProjectile
    rw [if_pos h]

/-- Witness for C9's amended statement at a concrete input: a no-pose request
at t = 500 ms from the initial state. -/
theorem c9_witness :
    (fireProjectile initWSState 500 none).projectiles = initWSState.projectiles ∧
    (fireProjectile initWSState 500 none).lastFireTime = 500 :=
  c9_fire_no_pose.1 initWSState 500 (by norm_num [initWSState, cooldownPeriod])

/-- C6 (counterexample to the claim as stated): with no live adversaries and
exactly 2 s accumulated since the last spawn (1 s carried + a 1 s tick), the
claim calls for a spawn, but the spawn condition is strict
(`timeSinceLastSpawn > 2`), so nothing spawns on that tick. -/
theorem c6_counterexample :
    (spawnUpdate ⟨[], 1⟩ 1 ⟨0, 0, 0⟩ ⟨0, 0, 0, 0, 0, 0⟩ 7000).ufos.length = 0 ∧
    ([] : List UFOData).length < 5 ∧
    (2 : ℝ) ≤ 1 + 1 := by
  refine ⟨?_, by norm_num, by norm_num⟩
  unfold spawnUpdate
  norm_num

/-- C6 (amended): with the population floor 5, a tick with at least 5 live
adversaries never spawns regardless of the elapsed time; a tick with fewer than
5 live adversaries and STRICTLY more than 2 s accumulated since the last spawn
spawns exactly one adversary and resets the spawn timer; the spawned adversary
sits at horizontal distance `SPAWN_DISTANCE` from the player at a random
heading, with altitude in [`MIN_ALTITUDE`, `MIN_ALTITUDE + ALTITUDE_VARIATION`]. -/
theorem c6_spawn_population :
    (∀ (s : UMState) (delta : ℝ) (player : Vector3) (r : SpawnRandom) (now : ℝ),
      5 ≤ s.ufos.length →
      (spawnUpdate s delta player r now).ufos = s.ufos) ∧
    (∀ (s : UMState) (delta : ℝ) (player : Vector3) (r : SpawnRandom) (now : ℝ),
      s.ufos.length < 5 → 2 < s.timeSinceLastSpawn + delta →
      (spawnUpdate s delta player r now).ufos = s.ufos ++ [newUfo player r now] ∧
      (spawnUpdate s delta player r now).timeSinceLastSpawn = 0) ∧
    (∀ (player : Vector3) (r : SpawnRandom) (now : ℝ),
      0 ≤ r.rAltitude → r.rAltitude < 1 →
      MIN_ALTITUDE ≤ (newUfo player r now).position.y ∧
      (newUfo player r now).position.y ≤ MIN_ALTITUDE + ALTITUDE_VARIATION) ∧
    (∀ (player : Vector3) (r : SpawnRandom) (now : ℝ),
      Real.sqrt (((newUfo player r now).position.x - player.x) ^ 2 +
        ((newUfo player r now).position.z - player.z) ^ 2) = SPAWN_DISTANCE) := by
  refine ⟨?_, ?_, ?_, ?_⟩
  · intro s delta player r now h
    unfold spawnUpdate
    rw [if_neg]
    intro hc
    omega
  · intro s delta player r now h1 h2
    unfold spawnUpdate
    rw [if_pos ⟨h1, h2⟩]
    exact ⟨rfl, rfl⟩
  · intro player r now h1 h2
    unfold newUfo MIN_ALTITUDE ALTITUDE_VARIATION
    constructor <;> simp only <;> nlinarith
  · intro player r now
    unfold newUfo SPAWN_DISTANCE
    simp only
    have key : (player.x + Real.cos (r.rAngle * Real.pi * 2) * 200 - player.x) ^ 2 +
        (player.z + Real.sin (r.rAngle * Real.pi * 2) * 200 - player.z) ^ 2
        = (200 : ℝ) ^ 2 := by
      have hs := Real.sin_sq_add_cos_sq (r.rAngle * Real.pi * 2)
      nlinarith [hs]
    rw [key]
    exact Real.sqrt_sq (by norm_num)

/-- Witness for C6's amended statement at a concrete input: one adversary
alive, 1.5 s carried plus a 1 s tick (2.5 s elapsed), player at the origin,
altitude draw 0.5. -/
theorem c6_witness :
    (spawnUpdate ⟨[newUfo ⟨0, 0, 0⟩ ⟨0, 0.5, 0, 0, 0, 0⟩ 1], 1.5⟩ 1 ⟨0, 0, 0⟩
        ⟨0, 0.5, 0, 0, 0, 0⟩ 9000).ufos
      = [newUfo ⟨0, 0, 0⟩ ⟨0, 0.5, 0, 0, 0, 0⟩ 1] ++
        [newUfo ⟨0, 0, 0⟩ ⟨0, 0.5, 0, 0, 0, 0⟩ 9000] ∧
    MIN_ALTITUDE ≤ (newUfo ⟨0, 0, 0⟩ ⟨0, 0.5, 0, 0, 0, 0⟩ 9000).position.y ∧
    (newUfo ⟨0, 0, 0⟩ ⟨0, 0.5, 0, 0, 0, 0⟩ 9000).position.y
      ≤ MIN_ALTITUDE + ALTITUDE_VARIATION := by
  refine ⟨(c6_spawn_population.2.1 _ 1 _ _ 9000 (by norm_num) (by norm_num)).1, ?_, ?_⟩
  · exact (c6_spawn_population.2.2.1 _ _ 9000 (by norm_num) (by norm_num)).1
  · exact (c6_spawn_population.2.2.1 _ _ 9000 (by norm_num) (by norm_num)).2

/-- C4: a fire request is accepted iff at least `cooldownPeriod` (200 ms) has
elapsed since the last fire attempt that passed the cooldown; an accepted fire
with the pose available appends exactly two projectiles, right and left,
laterally offset from the nose by the rotated (±0.5, 0, 0) offsets, both with
direction equal to the plane's forward direction at spawn time; requests at
t0, t0+50, t0+100, t0+150, t0+200 (for a clock with t0 ≥ 200) accept exactly
the first and the last; the per-tick projectile update never changes the stored
direction. -/
theorem c4_fire_cooldown :
    (∀ (s : WSState) (now : ℝ) (plane : PlanePose),
      cooldownPeriod ≤ now - s.lastFireTime →
      (fireProjectile s now (some plane)).projectiles
        = s.projectiles ++
          [{ id := (now, true)
             position := plane.position.add (applyQuaternion ⟨0.5, 0, 0⟩ plane.quaternion)
             direction := (applyQuaternion ⟨0, 0, -1⟩ plane.quaternion).normalize },
           { id := (now, false)
             position := plane.position.add (applyQuaternion ⟨-0.5, 0, 0⟩ plane.quaternion)
             direction := (applyQuaternion ⟨0, 0, -1⟩ plane.quaternion).normalize }] ∧
      (fireProjectile s now (some plane)).lastFireTime = now) ∧
    (∀ (s : WSState) (now : ℝ) (plane : PlanePose),
      now - s.lastFireTime < cooldownPeriod →
      fireProjectile s now (some plane) = s) ∧
    (∀ (t0 : ℝ) (plane : PlanePose), cooldownPeriod ≤ t0 →
      (fireRun initWSState (some plane)
          [t0, t0 + 50, t0 + 100, t0 + 150, t0 + 200]).projectiles.map (fun p => p.id)
        = [(t0, true), (t0, false), (t0 + 200, true), (t0 + 200, false)]) ∧
    (∀ (delta : ℝ) (p : ProjectileDataT ProjectileId),
      (updateProjectile delta p).direction = p.direction) := by
  have haccept : ∀ (s : WSState) (now : ℝ) (plane : PlanePose),
      ¬ now - s.lastFireTime < cooldownPeriod →
      fireProjectile s now (some plane)
        = { projectiles := s.projectiles ++
              [{ id := (now, true)
                 position := plane.position.add (applyQuaternion ⟨0.5, 0, 0⟩ plane.quaternion)
                 direction := (applyQuaternion ⟨0, 0, -1⟩ plane.quaternion).normalize },
               { id := (now, false)
                 position := plane.position.add (applyQuaternion ⟨-0.5, 0, 0⟩ plane.quaternion)
                 direction := (applyQuaternion ⟨0, 0, -1⟩ plane.quaternion).normalize }]
            lastFireTime := now } := by
    intro s now plane h
    unfold fireProjectile
    rw [if_neg h]
  have hreject : ∀ (s : WSState) (now : ℝ) (plane : PlanePose),
      now - s.lastFireTime < cooldownPeriod →
      fireProjectile s now (some plane) = s := by
    intro s now plane h
    unfold fireProjectile
    rw [if_pos h]
  refine ⟨?_, hreject, ?_, ?_⟩
  · intro s now plane h
    rw [haccept s now plane (not_lt.mpr h)]
    exact ⟨rfl, rfl⟩
  · intro t0 plane h
    have h200 : cooldownPeriod = 200 := rfl
    rw [h200] at h
    have h1 : ¬ t0 - initWSState.lastFireTime < cooldownPeriod := by
      unfold initWSState
      rw [h200]
      simp only
      linarith
    have e1 := haccept initWSState t0 plane h1
    have l1 : (fireProjectile initWSState t0 (some plane)).lastFireTime = t0 := by
      rw [e1]
    have hstep : fireRun initWSState (some plane)
        [t0, t0 + 50, t0 + 100, t0 + 150, t0 + 200]
        = fireProjectile (fireProjectile (fireProjectile (fireProjectile
            (fireProjectile initWSState t0 (some plane))
            (t0 + 50) (some plane)) (t0 + 100) (some plane)) (t0 + 150) (some plane))
          (t0 + 200) (some plane) := rfl
    have hr2 : fireProjectile (fireProjectile initWSState t0 (some plane)) (t0 + 50)
        (some plane) = fireProjectile initWSState t0 (some plane) :=
      hreject _ _ _ (by rw [l1, h200]; linarith)
    have hr3 : fireProjectile (fireProjectile initWSState t0 (some plane)) (t0 + 100)
        (some plane) = fireProjectile initWSState t0 (some plane) :=
      hreject _ _ _ (by rw [l1, h200]; linarith)
    have hr4 : fireProjectile (fireProjectile initWSState t0 (some plane)) (t0 + 150)
        (some plane) = fireProjectile initWSState t0 (some plane) :=
      hreject _ _ _ (by rw [l1, h200]; linarith)
    have hr5 := haccept (fireProjectile initWSState t0 (some plane)) (t0 + 200) plane
      (by rw [l1, h200]; intro hc; linarith)
    rw [hstep, hr2, hr3, hr4, hr5, e1]
    simp [initWSState]
  · intro delta p
    rfl

/-- Witness for C4 at a concrete input: requests at 1000..1200 ms with the
identity plane pose. -/
theorem c4_witness :
    (fireRun initWSState (some ⟨⟨0, 0, 0⟩, ⟨0, 0, 0, 1⟩⟩)
        [1000, 1000 + 50, 1000 + 100, 1000 + 150, 1000 + 200]).projectiles.map
      (fun p => p.id)
      = [((1000 : ℝ), true), (1000, false), (1000 + 200, true), (1000 + 200, false)] :=
  c4_fire_cooldown.2.2.1 1000 ⟨⟨0, 0, 0⟩, ⟨0, 0, 0, 1⟩⟩ (by norm_num [cooldownPeriod])

/-- The bounds invariant of the aircraft state claimed by the spec for pitch,
roll and speed. -/
def pitchRollSpeedBounds (s : PlaneState) : Prop :=
  -MAX_PITCH_ANGLE ≤ s.pitch ∧ s.pitch ≤ MAX_PITCH_ANGLE ∧
  -MAX_ROLL_ANGLE ≤ s.roll ∧ s.roll ≤ MAX_ROLL_ANGLE ∧
  MIN_SPEED ≤ s.speed ∧ s.speed ≤ MAX_SPEED

theorem clampedDelta_nonneg {delta : ℝ} (h : 0 ≤ delta) : 0 ≤ clampedDelta delta :=
  le_min h (by norm_num)

theorem clampedDelta_le (delta : ℝ) : clampedDelta delta ≤ 0.1 :=
  min_le_right _ _

theorem tickPitch_of_ne {s : PlaneState} {k : Keys} {delta : ℝ}
    (h : inputPitch k * PITCH_SENSITIVITY * clampedDelta delta ≠ 0) :
    tickPitch s k delta
      = MathUtils.clamp (s.pitch + inputPitch k * PITCH_SENSITIVITY * clampedDelta delta)
        (-MAX_PITCH_ANGLE) MAX_PITCH_ANGLE := by
  unfold tickPitch
  simp [h]

theorem tickPitch_of_eq {s : PlaneState} {k : Keys} {delta : ℝ}
    (h : inputPitch k * PITCH_SENSITIVITY * clampedDelta delta = 0) :
    tickPitch s k delta
      = MathUtils.lerp s.pitch 0 (AUTO_LEVEL_SPEED * clampedDelta delta) := by
  unfold tickPitch
  simp [h]

theorem tickRoll_of_ne {s : PlaneState} {k : Keys} {delta : ℝ}
    (h : inputRoll k * ROLL_SENSITIVITY * clampedDelta delta ≠ 0) :
    tickRoll s k delta
      = MathUtils.clamp (s.roll + inputRoll k * ROLL_SENSITIVITY * clampedDelta delta)
        (-MAX_ROLL_ANGLE) MAX_ROLL_ANGLE := by
  unfold tickRoll
  simp [h]

theorem tickRoll_of_eq {s : PlaneState} {k : Keys} {delta : ℝ}
    (h : inputRoll k * ROLL_SENSITIVITY * clampedDelta delta = 0) :
    tickRoll s k delta
      = MathUtils.lerp s.roll 0 (AUTO_LEVEL_SPEED * clampedDelta delta) := by
  unfold tickRoll
  simp [h]

theorem tickYaw_of_ne {s : PlaneState} {k : Keys} {delta : ℝ}
    (h : inputRoll k * ROLL_SENSITIVITY * clampedDelta delta ≠ 0) :
    tickYaw s k delta
      = normalizeAngle (normalizeAngle s.yaw
          + -(tickRoll s k delta) * TURN_SENSITIVITY * clampedDelta delta) := by
  unfold tickYaw
  simp [h]

theorem tickYaw_of_eq {s : PlaneState} {k : Keys} {delta : ℝ}
    (h : inputRoll k * ROLL_SENSITIVITY * clampedDelta delta = 0) :
    tickYaw s k delta = normalizeAngle (normalizeAngle s.yaw) := by
  unfold tickYaw
  simp [h]

theorem tickPitch_bounds (s : PlaneState) (k : Keys) {delta : ℝ} (hd : 0 ≤ delta)
    (h1 : -MAX_PITCH_ANGLE ≤ s.pitch) (h2 : s.pitch ≤ MAX_PITCH_ANGLE) :
    -MAX_PITCH_ANGLE ≤ tickPitch s k delta ∧ tickPitch s k delta ≤ MAX_PITCH_ANGLE := by
  have hb : (0:ℝ) ≤ MAX_PITCH_ANGLE := by
    unfold MAX_PITCH_ANGLE
    positivity
  have hmm : -MAX_PITCH_ANGLE ≤ MAX_PITCH_ANGLE := by linarith
  rcases eq_or_ne (inputPitch k * PITCH_SENSITIVITY * clampedDelta delta) 0 with h | h
  · rw [tickPitch_of_eq h]
    have hc1 := clampedDelta_nonneg hd
    have hc2 := clampedDelta_le delta
    refine MathUtils.lerp_zero_bounds hb h1 h2 ?_ ?_
    · unfold AUTO_LEVEL_SPEED
      linarith
    · unfold AUTO_LEVEL_SPEED
      linarith
  · rw [tickPitch_of_ne h]
    exact ⟨MathUtils.le_clamp _ _ _, MathUtils.clamp_le _ _ _ hmm⟩

theorem tickRoll_bounds (s : PlaneState) (k : Keys) {delta : ℝ} (hd : 0 ≤ delta)
    (h1 : -MAX_ROLL_ANGLE ≤ s.roll) (h2 : s.roll ≤ MAX_ROLL_ANGLE) :
    -MAX_ROLL_ANGLE ≤ tickRoll s k delta ∧ tickRoll s k delta ≤ MAX_ROLL_ANGLE := by
  have hb : (0:ℝ) ≤ MAX_ROLL_ANGLE := by
    unfold MAX_ROLL_ANGLE
    positivity
  have hmm : -MAX_ROLL_ANGLE ≤ MAX_ROLL_ANGLE := by linarith
  rcases eq_or_ne (inputRoll k * ROLL_SENSITIVITY * clampedDelta delta) 0 with h | h
  · rw [tickRoll_of_eq h]
    have hc1 := clampedDelta_nonneg hd
    have hc2 := clampedDelta_le delta
    refine MathUtils.lerp_zero_bounds hb h1 h2 ?_ ?_
    · unfold AUTO_LEVEL_SPEED
      linarith
    · unfold AUTO_LEVEL_SPEED
      linarith
  · rw [tickRoll_of_ne h]
    exact ⟨MathUtils.le_clamp _ _ _, MathUtils.clamp_le _ _ _ hmm⟩

theorem tickNewSpeed_bounds (s : PlaneState) (k : Keys) (delta : ℝ) :
    MIN_SPEED ≤ tickNewSpeed s k delta ∧ tickNewSpeed s k delta ≤ MAX_SPEED := by
  unfold tickNewSpeed
  refine ⟨MathUtils.le_clamp _ _ _, MathUtils.clamp_le _ _ _ ?_⟩
  unfold MIN_SPEED MAX_SPEED
  norm_num

theorem planeTick_bounds (reg : Registry) (s : PlaneState) (k : Keys)
    {delta : ℝ} (now : ℝ) (hd : 0 ≤ delta) (hs : pitchRollSpeedBounds s) :
    pitchRollSpeedBounds (planeTick reg s k delta now) := by
  obtain ⟨hp1, hp2, hr1, hr2, hv1, hv2⟩ := hs
  have hp := tickPitch_bounds s k hd hp1 hp2
  have hr := tickRoll_bounds s k hd hr1 hr2
  have hv := tickNewSpeed_bounds s k delta
  have hcol : pitchRollSpeedBounds (tickCollide (tickMove s k delta) s.speed now
      CollisionKind.ground) ∧
      pitchRollSpeedBounds (tickCollide (tickMove s k delta) s.speed now
        CollisionKind.building) := by
    have hmain : ∀ t : CollisionKind,
        pitchRollSpeedBounds (tickCollide (tickMove s k delta) s.speed now t) := by
      intro t
      unfold tickCollide
      split
      · exact ⟨hp.1, hp.2, hr.1, hr.2, hv.1, hv.2⟩
      · refine ⟨hp.1, hp.2, hr.1, hr.2, le_max_left _ _, ?_⟩
        have h3 : s.speed * 0.3 ≤ MAX_SPEED := by
          unfold MAX_SPEED at hv2 ⊢
          linarith
        have h4 : MIN_SPEED ≤ MAX_SPEED := by
          unfold MIN_SPEED MAX_SPEED
          norm_num
        exact max_le h4 h3
    exact ⟨hmain _, hmain _⟩
  unfold planeTick
  split
  · exact ⟨hp1, hp2, hr1, hr2, hv1, hv2⟩
  · split
    · exact hcol.1
    · split
      · exact hcol.2
      · exact ⟨hp.1, hp.2, hr.1, hr.2, hv.1, hv.2⟩

theorem planeRun_bounds (reg : Registry) (ticks : List TickInput)
    (hd : ∀ t ∈ ticks, 0 ≤ t.delta) :
    ∀ s : PlaneState, pitchRollSpeedBounds s →
      pitchRollSpeedBounds (planeRun reg s ticks) := by
  induction ticks with
  | nil => intro s hs; exact hs
  | cons t ts ih =>
    intro s hs
    have h1 : 0 ≤ t.delta := hd t (List.mem_cons_self t ts)
    have h2 : ∀ u ∈ ts, 0 ≤ u.delta := fun u hu => hd u (List.mem_cons_of_mem t hu)
    exact ih h2 _ (planeTick_bounds reg s t.keys t.now h1 hs)

theorem initPlaneState_bounds : pitchRollSpeedBounds initPlaneState := by
  have hpi := Real.pi_gt_three
  unfold pitchRollSpeedBounds initPlaneState MAX_PITCH_ANGLE MAX_ROLL_ANGLE
    MIN_SPEED MAX_SPEED
  refine ⟨?_, ?_, ?_, ?_, ?_, ?_⟩ <;> simp only <;> norm_num <;> linarith

/-- C2: for every sequence of per-tick delta values (arbitrarily large ones
included, each nonnegative as an elapsed time is) and every sequence of key
states, the aircraft state reached after every tick of the run from the initial
state keeps pitch in [-pi/3, pi/3], roll in [-pi/4, pi/4] and speed in
[10, 50]. -/
theorem c2_bounds_invariant (reg : Registry) (ticks : List TickInput)
    (hd : ∀ t ∈ ticks, 0 ≤ t.delta) (n : ℕ) :
    pitchRollSpeedBounds (planeRun reg initPlaneState (ticks.take n)) := by
  refine planeRun_bounds reg (ticks.take n) ?_ initPlaneState initPlaneState_bounds
  intro t ht
  exact hd t (List.mem_of_mem_take ht)

/-- Witness for C2 at a concrete input: a two-tick run with a pathologically
large first delta (1000 s) while diving and rolling, then a small tick. -/
theorem c2_witness :
    pitchRollSpeedBounds (planeRun []
      initPlaneState
      ([⟨⟨true, false, false, true, true, false⟩, 1000, 0⟩,
        ⟨⟨false, false, false, false, false, false⟩, 0.016, 0⟩].take 2)) :=
  c2_bounds_invariant [] _ (by
    intro t ht
    simp only [List.mem_cons, List.not_mem_nil, or_false] at ht
    rcases ht with h | h <;> subst h <;> norm_num) 2

/-- C5 (amended): after every tick of any run from the initial state the stored
yaw lies in the CLOSED interval [-pi, pi] (the endpoint -pi is attainable, see
the counterexample), and `normalizeAngle` is idempotent on every real. -/
theorem c5_yaw_range_and_idem :
    (∀ (reg : Registry) (ticks : List TickInput) (n : ℕ),
      -Real.pi ≤ (planeRun reg initPlaneState (ticks.take n)).yaw ∧
      (planeRun reg initPlaneState (ticks.take n)).yaw ≤ Real.pi) ∧
    (∀ x : ℝ, normalizeAngle (normalizeAngle x) = normalizeAngle x) := by
  constructor
  · have step : ∀ (reg : Registry) (s : PlaneState) (k : Keys) (delta now : ℝ),
        -Real.pi ≤ s.yaw ∧ s.yaw ≤ Real.pi →
        -Real.pi ≤ (planeTick reg s k delta now).yaw ∧
          (planeTick reg s k delta now).yaw ≤ Real.pi := by
      intro reg s k delta now hs
      have hyaw : -Real.pi ≤ tickYaw s k delta ∧ tickYaw s k delta ≤ Real.pi := by
        rcases eq_or_ne (inputRoll k * ROLL_SENSITIVITY * clampedDelta delta) 0 with h | h
        · rw [tickYaw_of_eq h]
          exact ⟨normalizeAngle_ge _, normalizeAngle_le _⟩
        · rw [tickYaw_of_ne h]
          exact ⟨normalizeAngle_ge _, normalizeAngle_le _⟩
      unfold planeTick
      split
      · exact hs
      · have hcol : ∀ t : CollisionKind,
            -Real.pi ≤ (tickCollide (tickMove s k delta) s.speed now t).yaw ∧
            (tickCollide (tickMove s k delta) s.speed now t).yaw ≤ Real.pi := by
          intro t
          unfold tickCollide
          split
          · exact hyaw
          · exact hyaw
        split
        · exact hcol _
        · split
          · exact hcol _
          · exact hyaw
    have run : ∀ (reg : Registry) (l : List TickInput) (s : PlaneState),
        -Real.pi ≤ s.yaw ∧ s.yaw ≤ Real.pi →
        -Real.pi ≤ (planeRun reg s l).yaw ∧ (planeRun reg s l).yaw ≤ Real.pi := by
      intro reg l
      induction l with
      | nil => intro s hs; exact hs
      | cons t ts ih => intro s hs; exact ih _ (step reg s t.keys t.delta t.now hs)
    intro reg ticks n
    refine run reg (ticks.take n) initPlaneState ?_
    unfold initPlaneState
    have := Real.pi_pos
    constructor <;> simp only <;> linarith
  · exact normalizeAngle_idem

/-- Specification-side notion for C8: the probe sphere (center, radius) meets
the axis-aligned box of a registered obstacle — some point of the box lies
within `radius` of the center ("true iff the sphere intersects any registered
AABB (position ± extents)"). -/
def sphereMeetsAABB (center : Vector3) (radius : ℝ) (b : Building) : Prop :=
  ∃ p : Vector3,
    (buildingBoxMin b).x ≤ p.x ∧ p.x ≤ (buildingBoxMax b).x ∧
    (buildingBoxMin b).y ≤ p.y ∧ p.y ≤ (buildingBoxMax b).y ∧
    (buildingBoxMin b).z ≤ p.z ∧ p.z ≤ (buildingBoxMax b).z ∧
    p.distanceTo center ≤ radius

theorem clamp_axis_closest {lo hi c t : ℝ} (hlohi : lo ≤ hi) (ht1 : lo ≤ t)
    (ht2 : t ≤ hi) :
    (max lo (min hi c) - c) * (max lo (min hi c) - c) ≤ (t - c) * (t - c) := by
  rcases lt_or_le c lo with h1 | h1
  · have hmin : min hi c = c := min_eq_right (by linarith)
    have hmax : max lo c = lo := max_eq_left (by linarith)
    rw [hmin, hmax]
    nlinarith
  · rcases le_or_lt c hi with h2 | h2
    · have hmin : min hi c = c := min_eq_right h2
      have hmax : max lo c = c := max_eq_right h1
      rw [hmin, hmax]
      nlinarith
    · have hmin : min hi c = hi := min_eq_left (by linarith)
      have hmax : max lo hi = hi := max_eq_right hlohi
      rw [hmin, hmax]
      nlinarith

theorem boxIntersectsSphere_iff (b : Building) (c : Vector3)
    (hx : 0 ≤ b.size.x) (hy : 0 ≤ b.size.y) (hz : 0 ≤ b.size.z) :
    (boxIntersectsSphere (buildingBoxMin b) (buildingBoxMax b) c
        PLANE_COLLISION_RADIUS = true)
      ↔ sphereMeetsAABB c PLANE_COLLISION_RADIUS b := by
  have hxx : (buildingBoxMin b).x ≤ (buildingBoxMax b).x := by
    unfold buildingBoxMin buildingBoxMax
    simp only
    linarith
  have hyy : (buildingBoxMin b).y ≤ (buildingBoxMax b).y := by
    unfold buildingBoxMin buildingBoxMax
    simp only
    linarith
  have hzz : (buildingBoxMin b).z ≤ (buildingBoxMax b).z := by
    unfold buildingBoxMin buildingBoxMax
    simp only
    linarith
  unfold boxIntersectsSphere
  rw [decide_eq_true_iff]
  constructor
  · intro h
    refine ⟨Vector3.clampVec c (buildingBoxMin b) (buildingBoxMax b), le_max_left _ _,
      max_le hxx (min_le_left _ _), le_max_left _ _, max_le hyy (min_le_left _ _),
      le_max_left _ _, max_le hzz (min_le_left _ _), ?_⟩
    unfold Vector3.distanceTo
    have h4 : (PLANE_COLLISION_RADIUS : ℝ) = Real.sqrt (PLANE_COLLISION_RADIUS *
        PLANE_COLLISION_RADIUS) := by
      rw [Real.sqrt_mul_self]
      unfold PLANE_COLLISION_RADIUS
      norm_num
    rw [h4]
    exact Real.sqrt_le_sqrt h
  · rintro ⟨p, hp1, hp2, hp3, hp4, hp5, hp6, hpd⟩
    have hd2 : p.distanceToSquared c ≤ PLANE_COLLISION_RADIUS * PLANE_COLLISION_RADIUS := by
      have hnn : 0 ≤ p.distanceToSquared c := by
        unfold Vector3.distanceToSquared
        nlinarith [sq_nonneg (p.x - c.x), sq_nonneg (p.y - c.y), sq_nonneg (p.z - c.z)]
      have hrad : (0:ℝ) ≤ PLANE_COLLISION_RADIUS := by
        unfold PLANE_COLLISION_RADIUS
        norm_num
      unfold Vector3.distanceTo at hpd
      nlinarith [Real.mul_self_sqrt hnn, Real.sqrt_nonneg (p.distanceToSquared c), hpd]
    refine le_trans ?_ hd2
    unfold Vector3.distanceToSquared Vector3.clampVec
    simp only
    have ax := clamp_axis_closest (c := c.x) hxx hp1 hp2
    have ay := clamp_axis_closest (c := c.y) hyy hp3 hp4
    have az := clamp_axis_closest (c := c.z) hzz hp5 hp6
    linarith

/-- C8: the static-registry query `checkBuildingCollisions` returns true iff
the probe sphere (plane position, `PLANE_COLLISION_RADIUS`) geometrically meets
the AABB of at least one currently registered obstacle (obstacles with
nonnegative extents, as every registered building has); and once an obstacle is
unregistered, a probe that meets no other registered AABB queries false. -/
theorem c8_registry_query_iff :
    (∀ (reg : Registry) (c : Vector3),
      (∀ e ∈ reg, 0 ≤ e.2.size.x ∧ 0 ≤ e.2.size.y ∧ 0 ≤ e.2.size.z) →
      (checkBuildingCollisions reg c = true ↔
        ∃ e ∈ reg, sphereMeetsAABB c PLANE_COLLISION_RADIUS e.2)) ∧
    (∀ (reg : Registry) (id : String) (c : Vector3),
      (∀ e ∈ reg, 0 ≤ e.2.size.x ∧ 0 ≤ e.2.size.y ∧ 0 ≤ e.2.size.z) →
      (∀ e ∈ reg, e.1 ≠ id → ¬ sphereMeetsAABB c PLANE_COLLISION_RADIUS e.2) →
      checkBuildingCollisions (unregisterBuilding reg id) c = false) := by
  have main : ∀ (reg : Registry) (c : Vector3),
      (∀ e ∈ reg, 0 ≤ e.2.size.x ∧ 0 ≤ e.2.size.y ∧ 0 ≤ e.2.size.z) →
      (checkBuildingCollisions reg c = true ↔
        ∃ e ∈ reg, sphereMeetsAABB c PLANE_COLLISION_RADIUS e.2) := by
    intro reg c hs
    unfold checkBuildingCollisions
    rw [List.any_eq_true]
    constructor
    · rintro ⟨e, he, hq⟩
      exact ⟨e, he, (boxIntersectsSphere_iff e.2 c (hs e he).1 (hs e he).2.1
        (hs e he).2.2).mp hq⟩
    · rintro ⟨e, he, hq⟩
      exact ⟨e, he, (boxIntersectsSphere_iff e.2 c (hs e he).1 (hs e he).2.1
        (hs e he).2.2).mpr hq⟩
  refine ⟨main, ?_⟩
  intro reg id c hs hnone
  by_contra hq
  have htrue : checkBuildingCollisions (unregisterBuilding reg id) c = true := by
    revert hq
    cases checkBuildingCollisions (unregisterBuilding reg id) c <;> simp
  have hsub : ∀ e ∈ unregisterBuilding reg id,
      0 ≤ e.2.size.x ∧ 0 ≤ e.2.size.y ∧ 0 ≤ e.2.size.z := by
    intro e he
    exact hs e (List.mem_of_mem_filter he)
  obtain ⟨e, he, hmeets⟩ := (main (unregisterBuilding reg id) c hsub).mp htrue
  have he2 := List.mem_filter.mp he
  refine hnone e he2.1 ?_ hmeets
  have := he2.2
  simpa using this

/-- Witness for C8 at a concrete input: a single registered 2x2x2 building at
the origin probed from its center, and its unregistration probed with the same
sphere. -/
theorem c8_witness :
    (checkBuildingCollisions [("b1", ⟨⟨0, 0, 0⟩, ⟨2, 2, 2⟩⟩)] ⟨0, 0, 0⟩ = true ↔
      ∃ e ∈ [(("b1" : String), (⟨⟨0, 0, 0⟩, ⟨2, 2, 2⟩⟩ : Building))],
        sphereMeetsAABB ⟨0, 0, 0⟩ PLANE_COLLISION_RADIUS e.2) ∧
    checkBuildingCollisions
      (unregisterBuilding [("b1", ⟨⟨0, 0, 0⟩, ⟨2, 2, 2⟩⟩)] "b1") ⟨0, 0, 0⟩ = false := by
  constructor
  · exact c8_registry_query_iff.1 [("b1", ⟨⟨0, 0, 0⟩, ⟨2, 2, 2⟩⟩)] ⟨0, 0, 0⟩
      (by intro e he; simp at he; rw [he]; norm_num)
  · exact c8_registry_query_iff.2 [("b1", ⟨⟨0, 0, 0⟩, ⟨2, 2, 2⟩⟩)] "b1" ⟨0, 0, 0⟩
      (by intro e he; simp at he; rw [he]; norm_num)
      (by intro e he hne; simp at he; rw [he] at hne; simp at hne)

theorem applyQuaternion_neg_z (p y r : ℝ) :
    applyQuaternion ⟨0, 0, -1⟩ (setFromEulerYXZ p y r)
      = ⟨-(Real.sin y * Real.cos p), Real.sin p, -(Real.cos y * Real.cos p)⟩ := by
  have hsp := Real.sin_two_mul (p / 2)
  rw [show 2 * (p / 2) = p by ring] at hsp
  have hsy := Real.sin_two_mul (y / 2)
  rw [show 2 * (y / 2) = y by ring] at hsy
  have hcp := Real.cos_two_mul' (p / 2)
  rw [show 2 * (p / 2) = p by ring] at hcp
  have hcy := Real.cos_two_mul' (y / 2)
  rw [show 2 * (y / 2) = y by ring] at hcy
  have h1 := Real.sin_sq_add_cos_sq (p / 2)
  have h2 := Real.sin_sq_add_cos_sq (y / 2)
  have h3 := Real.sin_sq_add_cos_sq (r / 2)
  simp only [applyQuaternion, setFromEulerYXZ, Vector3.mk.injEq]
  refine ⟨?_, ?_, ?_⟩
  · rw [hsy, hcp]
    linear_combination (-2 * Real.sin (y / 2) * Real.cos (y / 2) *
      (Real.cos (p / 2) ^ 2 - Real.sin (p / 2) ^ 2)) * h3
  · rw [hsp]
    linear_combination (2 * Real.sin (p / 2) * Real.cos (p / 2) *
      (Real.sin (r / 2) ^ 2 + Real.cos (r / 2) ^ 2)) * h2 +
      (2 * Real.sin (p / 2) * Real.cos (p / 2)) * h3
  · rw [hcy, hcp]
    linear_combination (2 * (Real.sin (p / 2) ^ 2 * Real.cos (y / 2) ^ 2 +
      Real.cos (p / 2) ^ 2 * Real.sin (y / 2) ^ 2)) * h3 +
      (Real.sin (y / 2) ^ 2 + Real.cos (y / 2) ^ 2) * h1 + h2

theorem fwd_length (p y : ℝ) :
    Vector3.length ⟨-(Real.sin y * Real.cos p), Real.sin p,
      -(Real.cos y * Real.cos p)⟩ = 1 := by
  unfold Vector3.length Vector3.lengthSq
  simp only
  rw [show -(Real.sin y * Real.cos p) * -(Real.sin y * Real.cos p) +
      Real.sin p * Real.sin p +
      -(Real.cos y * Real.cos p) * -(Real.cos y * Real.cos p) = 1 from by
    linear_combination (Real.cos p ^ 2) * Real.sin_sq_add_cos_sq y +
      Real.sin_sq_add_cos_sq p]
  exact Real.sqrt_one

theorem fwd_normalize (p y : ℝ) :
    (⟨-(Real.sin y * Real.cos p), Real.sin p,
      -(Real.cos y * Real.cos p)⟩ : Vector3).normalize
      = ⟨-(Real.sin y * Real.cos p), Real.sin p, -(Real.cos y * Real.cos p)⟩ := by
  unfold Vector3.normalize
  rw [fwd_length]
  norm_num [Vector3.multiplyScalar]

theorem tickForward_eq (s : PlaneState) (k : Keys) (delta : ℝ) :
    tickForward s k delta
      = ⟨-(Real.sin (tickYaw s k delta) * Real.cos (tickPitch s k delta)),
          Real.sin (tickPitch s k delta),
          -(Real.cos (tickYaw s k delta) * Real.cos (tickPitch s k delta))⟩ := by
  unfold tickForward
  rw [applyQuaternion_neg_z, fwd_normalize]

theorem candidatePosition_eval (s : PlaneState) (k : Keys) (delta : ℝ) :
    candidatePosition s k delta
      = ⟨s.position.x + -(Real.sin (tickYaw s k delta) * Real.cos (tickPitch s k delta))
            * (tickNewSpeed s k delta * clampedDelta delta),
         s.position.y + Real.sin (tickPitch s k delta)
            * (tickNewSpeed s k delta * clampedDelta delta),
         s.position.z + -(Real.cos (tickYaw s k delta) * Real.cos (tickPitch s k delta))
            * (tickNewSpeed s k delta * clampedDelta delta)⟩ := by
  unfold candidatePosition
  rw [tickForward_eq]
  simp [Vector3.add, Vector3.multiplyScalar]

/-- The key state with no key pressed. -/
def noKeys : Keys := ⟨false, false, false, false, false, false⟩

theorem inputPitch_noKeys : inputPitch noKeys = 0 := by
  simp [inputPitch, noKeys]

theorem inputRoll_noKeys : inputRoll noKeys = 0 := by
  simp [inputRoll, noKeys]

theorem inputSpeed_noKeys : inputSpeed noKeys = 0 := by
  simp [inputSpeed, noKeys]

theorem tickPitch_noKeys (s : PlaneState) (delta : ℝ) :
    tickPitch s noKeys delta
      = MathUtils.lerp s.pitch 0 (AUTO_LEVEL_SPEED * clampedDelta delta) :=
  tickPitch_of_eq (by rw [inputPitch_noKeys]; ring)

theorem tickRoll_noKeys (s : PlaneState) (delta : ℝ) :
    tickRoll s noKeys delta
      = MathUtils.lerp s.roll 0 (AUTO_LEVEL_SPEED * clampedDelta delta) :=
  tickRoll_of_eq (by rw [inputRoll_noKeys]; ring)

theorem tickYaw_noKeys (s : PlaneState) (delta : ℝ) :
    tickYaw s noKeys delta = normalizeAngle (normalizeAngle s.yaw) :=
  tickYaw_of_eq (by rw [inputRoll_noKeys]; ring)

theorem tickNewSpeed_noKeys (s : PlaneState) (delta : ℝ) :
    tickNewSpeed s noKeys delta = MathUtils.clamp s.speed MIN_SPEED MAX_SPEED := by
  unfold tickNewSpeed
  rw [inputSpeed_noKeys]
  ring_nf

/-- Concrete pre-state for C3: level flight at speed 30, altitude 2.9, no
collision yet, last collision at clock 0. -/
def c3State : PlaneState :=
  { pitch := 0, yaw := 0, roll := 0, speed := 30, position := ⟨0, 2.9, 0⟩
    isColliding := false, collisionMessage := "", lastCollisionTime := 0 }

theorem c3_tickPitch : tickPitch c3State noKeys 0.1 = 0 := by
  rw [tickPitch_noKeys]
  simp [MathUtils.lerp, c3State]

theorem c3_tickRoll : tickRoll c3State noKeys 0.1 = 0 := by
  rw [tickRoll_noKeys]
  simp [MathUtils.lerp, c3State]

theorem c3_tickYaw : tickYaw c3State noKeys 0.1 = 0 := by
  rw [tickYaw_noKeys]
  have h0 : (c3State.yaw : ℝ) = 0 := rfl
  rw [h0]
  have hpi := Real.pi_pos
  have hin : normalizeAngle (0 : ℝ) = 0 :=
    normalizeAngle_of_mem (by linarith) (by linarith)
  rw [hin, hin]

theorem c3_tickNewSpeed : tickNewSpeed c3State noKeys 0.1 = 30 := by
  rw [tickNewSpeed_noKeys]
  unfold MathUtils.clamp c3State MIN_SPEED MAX_SPEED
  norm_num

theorem c3_candidate : candidatePosition c3State noKeys 0.1 = ⟨0, 2.9, -3⟩ := by
  rw [candidatePosition_eval, c3_tickPitch, c3_tickYaw, c3_tickNewSpeed]
  unfold c3State clampedDelta
  simp only [Real.sin_zero, Real.cos_zero]
  norm_num

/-- C3 (code-bug evaluation): on a tick where the candidate position collides
with the ground and the collision cooldown has elapsed, the controller does
enter recovery mode, cut speed to 30% floored at `MIN_SPEED`, and record the
collision kind — but it ALSO commits the candidate position (the position copy
at PlaneController.tsx:338 is unconditional, against the claim and against the
code's own comment "Update position if no collision"). -/
theorem c3_collision_commits_candidate :
    (planeTick [] c3State noKeys 0.1 5000).position = ⟨0, 2.9, -3⟩ ∧
    ¬ (planeTick [] c3State noKeys 0.1 5000).position = c3State.position ∧
    (planeTick [] c3State noKeys 0.1 5000).isColliding = true ∧
    (planeTick [] c3State noKeys 0.1 5000).speed = 10 ∧
    (planeTick [] c3State noKeys 0.1 5000).collisionMessage
      = "Crashed into the ground! Press R to reset" ∧
    checkGroundCollision ⟨0, 2.9, -3⟩ = true := by
  have hground : checkGroundCollision (candidatePosition c3State noKeys 0.1) = true := by
    rw [c3_candidate]
    unfold checkGroundCollision PLANE_COLLISION_RADIUS GROUND_LEVEL
    norm_num
  have htick : planeTick [] c3State noKeys 0.1 5000
      = tickCollide (tickMove c3State noKeys 0.1) c3State.speed 5000 .ground := by
    unfold planeTick
    rw [show c3State.isColliding = false from rfl]
    simp [hground]
  have hcool : ¬ (5000 : ℝ) - (tickMove c3State noKeys 0.1).lastCollisionTime
      < COLLISION_COOLDOWN := by
    rw [show (tickMove c3State noKeys 0.1).lastCollisionTime = 0 from rfl]
    unfold COLLISION_COOLDOWN
    norm_num
  have hcollide : tickCollide (tickMove c3State noKeys 0.1) c3State.speed 5000 .ground
      = { tickMove c3State noKeys 0.1 with
          lastCollisionTime := 5000
          isColliding := true
          collisionMessage := collisionText .ground
          speed := max MIN_SPEED (c3State.speed * 0.3) } := by
    unfold tickCollide
    rw [if_neg hcool]
  have hpos : (tickMove c3State noKeys 0.1).position = ⟨0, 2.9, -3⟩ := by
    unfold tickMove
    simp only
    exact c3_candidate
  refine ⟨?_, ?_, ?_, ?_, ?_, ?_⟩
  · rw [htick, hcollide]
    simp only
    exact hpos
  · rw [htick, hcollide]
    simp only
    rw [hpos]
    intro hcon
    have h1 := congrArg Vector3.z hcon
    simp [c3State] at h1
  · rw [htick, hcollide]
  · rw [htick, hcollide]
    simp only
    unfold MIN_SPEED c3State
    norm_num
  · rw [htick, hcollide]
    rfl
  · rw [← c3_candidate]
    exact hground

/-- C10: when the candidate position of a tick collides with the ground (and,
as in the claim, also with some registered building AABB), only the ground
collision is handled and recorded: the tick's outcome is identical to the
outcome with an empty building registry (the building test is never consulted),
and past the cooldown the recorded message is the ground one. -/
theorem c10_ground_before_building (reg : Registry) (s : PlaneState) (k : Keys)
    (delta now : ℝ) (h0 : s.isColliding = false)
    (hg : checkGroundCollision (candidatePosition s k delta) = true)
    (_hb : checkBuildingCollisions reg (candidatePosition s k delta) = true) :
    planeTick reg s k delta now = planeTick [] s k delta now ∧
    (¬ now - s.lastCollisionTime < COLLISION_COOLDOWN →
      (planeTick reg s k delta now).collisionMessage
        = "Crashed into the ground! Press R to reset") := by
  have h1 : planeTick reg s k delta now
      = tickCollide (tickMove s k delta) s.speed now .ground := by
    unfold planeTick
    rw [h0]
    simp [hg]
  have h2 : planeTick [] s k delta now
      = tickCollide (tickMove s k delta) s.speed now .ground := by
    unfold planeTick
    rw [h0]
    simp [hg]
  refine ⟨by rw [h1, h2], ?_⟩
  intro hcool
  rw [h1]
  unfold tickCollide
  rw [if_neg (by rw [show (tickMove s k delta).lastCollisionTime
    = s.lastCollisionTime from rfl]; exact hcool)]
  rfl

/-- Witness for C10 at a concrete input: the C3 state (candidate position
(0, 2.9, -3) hits the ground) with a 4x4x4 building registered right at the
candidate position, checked at clock 5000 ms. -/
theorem c10_witness :
    planeTick [("b", ⟨⟨0, 2.9, -3⟩, ⟨4, 4, 4⟩⟩)] c3State noKeys 0.1 5000
      = planeTick [] c3State noKeys 0.1 5000 ∧
    (planeTick [("b", ⟨⟨0, 2.9, -3⟩, ⟨4, 4, 4⟩⟩)] c3State noKeys 0.1 5000).collisionMessage
      = "Crashed into the ground! Press R to reset" := by
  have hg : checkGroundCollision (candidatePosition c3State noKeys 0.1) = true := by
    rw [c3_candidate]
    unfold checkGroundCollision PLANE_COLLISION_RADIUS GROUND_LEVEL
    norm_num
  have hb : checkBuildingCollisions [("b", ⟨⟨0, 2.9, -3⟩, ⟨4, 4, 4⟩⟩)]
      (candidatePosition c3State noKeys 0.1) = true := by
    rw [c3_candidate]
    unfold checkBuildingCollisions boxIntersectsSphere buildingBoxMin buildingBoxMax
      Vector3.clampVec Vector3.distanceToSquared PLANE_COLLISION_RADIUS
    norm_num
  have h := c10_ground_before_building [("b", ⟨⟨0, 2.9, -3⟩, ⟨4, 4, 4⟩⟩)] c3State
    noKeys 0.1 5000 rfl hg hb
  exact ⟨h.1, h.2 (by
    rw [show c3State.lastCollisionTime = 0 from rfl]
    unfold COLLISION_COOLDOWN
    norm_num)⟩

/-- The hit test of the collision pass, as the code writes it:
`distance < PROJECTILE_RADIUS + UFO_RADIUS`. -/
def projectileHits {α β : Type} (p : ProjectileDataT α) (u : β × Vector3) : Prop :=
  p.position.distanceTo u.2 < PROJECTILE_RADIUS + UFO_RADIUS

theorem passUfo_cases {α β : Type} [DecidableEq α] [DecidableEq β]
    (p : ProjectileDataT α) (st : PassOut α β) (u : β × Vector3) :
    passUfo p st u = st ∨
    passUfo p st u = ⟨st.projectilesToRemove ++ [p.id], st.hitUFOs ++ [(u.1, u.2)]⟩ := by
  unfold passUfo
  split
  · exact Or.inl rfl
  · split
    · exact Or.inr rfl
    · exact Or.inl rfl

theorem passUfo_no_hit {α β : Type} [DecidableEq α] [DecidableEq β]
    {p : ProjectileDataT α} (st : PassOut α β) {u : β × Vector3}
    (h : ¬ projectileHits p u) : passUfo p st u = st := by
  unfold projectileHits at h
  unfold passUfo
  by_cases hguard : p.id ∈ st.projectilesToRemove ∨ u.1 ∈ st.hitUFOs.map Prod.fst
  · rw [if_pos hguard]
  · rw [if_neg hguard, if_neg h]

theorem passUfo_skip {α β : Type} [DecidableEq α] [DecidableEq β]
    {p : ProjectileDataT α} (st : PassOut α β) (u : β × Vector3)
    (h : p.id ∈ st.projectilesToRemove) : passUfo p st u = st := by
  unfold passUfo
  rw [if_pos (Or.inl h)]

theorem foldUfos_nofire {α β : Type} [DecidableEq α] [DecidableEq β]
    (p : ProjectileDataT α) :
    ∀ (l : List (β × Vector3)) (st : PassOut α β),
      (∀ u ∈ l, ¬ projectileHits p u) → l.foldl (passUfo p) st = st := by
  intro l
  induction l with
  | nil => intro st _; rfl
  | cons v t ih =>
    intro st h
    rw [List.foldl_cons, passUfo_no_hit st (h v (List.mem_cons_self v t))]
    exact ih st fun u hu => h u (List.mem_cons_of_mem v hu)

theorem foldUfos_skip {α β : Type} [DecidableEq α] [DecidableEq β]
    (p : ProjectileDataT α) :
    ∀ (l : List (β × Vector3)) (st : PassOut α β),
      p.id ∈ st.projectilesToRemove → l.foldl (passUfo p) st = st := by
  intro l
  induction l with
  | nil => intro st _; rfl
  | cons v t ih =>
    intro st h
    rw [List.foldl_cons, passUfo_skip st v h]
    exact ih st h

theorem foldUfos_extend {α β : Type} [DecidableEq α] [DecidableEq β]
    (p : ProjectileDataT α) :
    ∀ (l : List (β × Vector3)) (st : PassOut α β),
      ∃ r h, l.foldl (passUfo p) st
        = ⟨st.projectilesToRemove ++ r, st.hitUFOs ++ h⟩ := by
  intro l
  induction l with
  | nil => intro st; exact ⟨[], [], by simp⟩
  | cons v t ih =>
    intro st
    rw [List.foldl_cons]
    rcases passUfo_cases p st v with hc | hc <;> rw [hc]
    · obtain ⟨r, h, hr⟩ := ih st
      exact ⟨r, h, hr⟩
    · obtain ⟨r, h, hr⟩ := ih ⟨st.projectilesToRemove ++ [p.id], st.hitUFOs ++ [(v.1, v.2)]⟩
      exact ⟨[p.id] ++ r, [(v.1, v.2)] ++ h, by rw [hr]; simp⟩

theorem foldUfos_len {α β : Type} [DecidableEq α] [DecidableEq β]
    (p : ProjectileDataT α) :
    ∀ (l : List (β × Vector3)) (st : PassOut α β),
      st.projectilesToRemove.length = st.hitUFOs.length →
      (l.foldl (passUfo p) st).projectilesToRemove.length
        = (l.foldl (passUfo p) st).hitUFOs.length := by
  intro l
  induction l with
  | nil => intro st h; exact h
  | cons v t ih =>
    intro st h
    rw [List.foldl_cons]
    rcases passUfo_cases p st v with hc | hc <;> rw [hc]
    · exact ih st h
    · exact ih _ (by simp [h])

theorem foldUfos_fire_nonempty {α β : Type} [DecidableEq α] [DecidableEq β]
    (p : ProjectileDataT α) :
    ∀ (l : List (β × Vector3)) (st : PassOut α β) (u : β × Vector3),
      u ∈ l → projectileHits p u →
      st.projectilesToRemove.length = st.hitUFOs.length →
      (l.foldl (passUfo p) st).hitUFOs ≠ [] := by
  intro l
  induction l with
  | nil => intro st u hu; exact absurd hu (List.not_mem_nil u)
  | cons v t ih =>
    intro st u hu hhit hlen
    rw [List.foldl_cons]
    rcases List.mem_cons.mp hu with rfl | hut
    · have hne : (passUfo p st u).hitUFOs ≠ [] := by
        unfold passUfo
        split
        · rename_i hguard
          rcases hguard with hg | hg
          · intro hnil
            have h1 : 1 ≤ st.projectilesToRemove.length := by
              exact List.length_pos.mpr (List.ne_nil_of_mem hg)
            rw [hlen] at h1
            rw [hnil] at h1
            simp at h1
          · intro hnil
            rw [hnil] at hg
            simp at hg
        · unfold projectileHits at hhit
          rw [if_pos hhit]
          simp
      obtain ⟨r, h, hr⟩ := foldUfos_extend p t (passUfo p st u)
      rw [hr]
      simp only
      intro hnil
      exact hne (List.append_eq_nil.mp hnil).1
    · rcases passUfo_cases p st v with hc | hc <;> rw [hc]
      · exact ih st u hut hhit hlen
      · exact ih _ u hut hhit (by simp [hlen])

theorem foldUfos_hits_sub {α β : Type} [DecidableEq α] [DecidableEq β]
    (p : ProjectileDataT α) (u : β × Vector3) :
    ∀ (l : List (β × Vector3)) (st : PassOut α β),
      (∀ v ∈ l, projectileHits p v → v = u) →
      (l.foldl (passUfo p) st).hitUFOs = st.hitUFOs ∨
      (¬ u.1 ∈ st.hitUFOs.map Prod.fst ∧
        (l.foldl (passUfo p) st).hitUFOs = st.hitUFOs ++ [(u.1, u.2)]) := by
  intro l
  induction l with
  | nil => intro st _; exact Or.inl rfl
  | cons v t ih =>
    intro st h
    have htail : ∀ w ∈ t, projectileHits p w → w = u := fun w hw =>
      h w (List.mem_cons_of_mem v hw)
    rw [List.foldl_cons]
    by_cases hguard : p.id ∈ st.projectilesToRemove ∨ v.1 ∈ st.hitUFOs.map Prod.fst
    · rw [show passUfo p st v = st from by unfold passUfo; rw [if_pos hguard]]
      exact ih st htail
    · by_cases hhit : projectileHits p v
      · have hvu : v = u := h v (List.mem_cons_self v t) hhit
        subst hvu
        have hstep : passUfo p st v
            = ⟨st.projectilesToRemove ++ [p.id], st.hitUFOs ++ [(v.1, v.2)]⟩ := by
          unfold passUfo
          rw [if_neg hguard]
          unfold projectileHits at hhit
          rw [if_pos hhit]
        rw [hstep]
        rcases ih ⟨st.projectilesToRemove ++ [p.id], st.hitUFOs ++ [(v.1, v.2)]⟩ htail
          with hcase | hcase
        · right
          refine ⟨fun hmem => hguard (Or.inr hmem), ?_⟩
          rw [hcase]
        · exfalso
          refine hcase.1 ?_
          simp
      · rw [passUfo_no_hit st hhit]
        exact ih st htail

theorem foldProjs_extend {α β : Type} [DecidableEq α] [DecidableEq β]
    (ufos : List (β × Vector3)) :
    ∀ (projs : List (ProjectileDataT α)) (st : PassOut α β),
      ∃ r h, projs.foldl (fun acc q => ufos.foldl (passUfo q) acc) st
        = ⟨st.projectilesToRemove ++ r, st.hitUFOs ++ h⟩ := by
  intro projs
  induction projs with
  | nil => intro st; exact ⟨[], [], by simp⟩
  | cons q t ih =>
    intro st
    rw [List.foldl_cons]
    obtain ⟨r1, h1, hr1⟩ := foldUfos_extend q ufos st
    obtain ⟨r2, h2, hr2⟩ := ih (ufos.foldl (passUfo q) st)
    rw [hr2, hr1]
    exact ⟨r1 ++ r2, h1 ++ h2, by simp⟩

theorem foldProjs_len {α β : Type} [DecidableEq α] [DecidableEq β]
    (ufos : List (β × Vector3)) :
    ∀ (projs : List (ProjectileDataT α)) (st : PassOut α β),
      st.projectilesToRemove.length = st.hitUFOs.length →
      (projs.foldl (fun acc q => ufos.foldl (passUfo q) acc) st).projectilesToRemove.length
        = (projs.foldl (fun acc q => ufos.foldl (passUfo q) acc) st).hitUFOs.length := by
  intro projs
  induction projs with
  | nil => intro st h; exact h
  | cons q t ih =>
    intro st h
    rw [List.foldl_cons]
    exact ih _ (foldUfos_len q ufos st h)

theorem foldProjs_hits_sub {α β : Type} [DecidableEq α] [DecidableEq β]
    (u : β × Vector3) :
    ∀ (projs : List (ProjectileDataT α)) (ufos : List (β × Vector3))
      (st : PassOut α β),
      (∀ q ∈ projs, ∀ v ∈ ufos, projectileHits q v → v = u) →
      (projs.foldl (fun acc q => ufos.foldl (passUfo q) acc) st).hitUFOs = st.hitUFOs ∨
      (¬ u.1 ∈ st.hitUFOs.map Prod.fst ∧
        (projs.foldl (fun acc q => ufos.foldl (passUfo q) acc) st).hitUFOs
          = st.hitUFOs ++ [(u.1, u.2)]) := by
  intro projs
  induction projs with
  | nil => intro ufos st _; exact Or.inl rfl
  | cons q t ih =>
    intro ufos st h
    have hq : ∀ v ∈ ufos, projectileHits q v → v = u := h q (List.mem_cons_self q t)
    have htail : ∀ q2 ∈ t, ∀ v ∈ ufos, projectileHits q2 v → v = u := fun q2 hq2 =>
      h q2 (List.mem_cons_of_mem q hq2)
    rw [List.foldl_cons]
    rcases foldUfos_hits_sub q u ufos st hq with hstep | hstep
    · rcases ih ufos (ufos.foldl (passUfo q) st) htail with hrest | hrest
      · rw [hstep] at hrest
        exact Or.inl hrest
      · rw [hstep] at hrest
        exact Or.inr hrest
    · rcases ih ufos (ufos.foldl (passUfo q) st) htail with hrest | hrest
      · rw [hstep.2] at hrest
        exact Or.inr ⟨hstep.1, hrest⟩
      · exfalso
        refine hrest.1 ?_
        rw [hstep.2]
        simp

theorem foldProjs_fire_nonempty {α β : Type} [DecidableEq α] [DecidableEq β] :
    ∀ (projs : List (ProjectileDataT α)) (ufos : List (β × Vector3))
      (st : PassOut α β) (p : ProjectileDataT α) (u : β × Vector3),
      p ∈ projs → u ∈ ufos → projectileHits p u →
      st.projectilesToRemove.length = st.hitUFOs.length →
      (projs.foldl (fun acc q => ufos.foldl (passUfo q) acc) st).hitUFOs ≠ [] := by
  intro projs
  induction projs with
  | nil => intro ufos st p u hp; exact absurd hp (List.not_mem_nil p)
  | cons q t ih =>
    intro ufos st p u hp hu hhit hlen
    rw [List.foldl_cons]
    rcases List.mem_cons.mp hp with rfl | hpt
    · have hne := foldUfos_fire_nonempty p ufos st u hu hhit hlen
      obtain ⟨r, h, hr⟩ := foldProjs_extend ufos t (ufos.foldl (passUfo p) st)
      rw [hr]
      simp only
      intro hnil
      exact hne (List.append_eq_nil.mp hnil).1
    · exact ih ufos _ p u hpt hu hhit (foldUfos_len q ufos st hlen)

theorem foldProjs_nofire {α β : Type} [DecidableEq α] [DecidableEq β]
    (ufos : List (β × Vector3)) :
    ∀ (l : List (ProjectileDataT α)) (st : PassOut α β),
      (∀ q ∈ l, ∀ v ∈ ufos, ¬ projectileHits q v) →
      l.foldl (fun acc q => ufos.foldl (passUfo q) acc) st = st := by
  intro l
  induction l with
  | nil => intro st _; rfl
  | cons q t ih =>
    intro st h
    rw [List.foldl_cons, foldUfos_nofire q ufos st (h q (List.mem_cons_self q t))]
    exact ih st fun q2 hq2 => h q2 (List.mem_cons_of_mem q hq2)

theorem collisionPass_unique_pair {α β : Type} [DecidableEq α] [DecidableEq β]
    (projectiles : List (ProjectileDataT α)) (ufos : List (β × Vector3))
    (p : ProjectileDataT α) (u : β × Vector3)
    (hnp : (projectiles.map (fun q => q.id)).Nodup)
    (hnu : (ufos.map Prod.fst).Nodup)
    (hp : p ∈ projectiles) (hu : u ∈ ufos)
    (hhit : projectileHits p u)
    (huniq : ∀ q ∈ projectiles, ∀ v ∈ ufos, projectileHits q v → q = p ∧ v = u) :
    collisionPass projectiles ufos = ⟨[p.id], [(u.1, u.2)]⟩ := by
  obtain ⟨preP, postP, rfl⟩ := List.append_of_mem hp
  have hid : ∀ q : ProjectileDataT α, q ∈ preP ∨ q ∈ postP → ¬ q.id = p.id := by
    rw [List.map_append, List.map_cons, List.nodup_append] at hnp
    obtain ⟨hn1, hn2, hdisj⟩ := hnp
    intro q hq he
    rcases hq with hq | hq
    · exact hdisj (List.mem_map_of_mem _ hq) (he ▸ List.mem_cons_self _ _)
    · exact (List.nodup_cons.mp hn2).1 (he ▸ List.mem_map_of_mem _ hq)
  have hnohit : ∀ q : ProjectileDataT α, q ∈ preP ∨ q ∈ postP →
      ∀ v ∈ ufos, ¬ projectileHits q v := by
    intro q hq v hv hh
    exact hid q hq (congrArg (fun w => w.id) (huniq q (by
      rcases hq with hq | hq
      · exact List.mem_append_left _ hq
      · exact List.mem_append_right _ (List.mem_cons_of_mem p hq)) v hv hh).1)
  have hinner : ufos.foldl (passUfo p)
      ({ projectilesToRemove := [], hitUFOs := [] } : PassOut α β)
      = ⟨[p.id], [(u.1, u.2)]⟩ := by
    obtain ⟨preU, postU, rfl⟩ := List.append_of_mem hu
    have hvno : ∀ v ∈ preU, ¬ projectileHits p v := by
      intro v hv hh
      have hvu := (huniq p (List.mem_append_right _ (List.mem_cons_self p postP)) v
        (List.mem_append_left _ hv) hh).2
      rw [List.map_append, List.map_cons, List.nodup_append] at hnu
      exact hnu.2.2 (List.mem_map_of_mem _ hv) (hvu ▸ List.mem_cons_self _ _)
    rw [List.foldl_append, foldUfos_nofire p preU _ hvno, List.foldl_cons]
    have hfire : passUfo p ({ projectilesToRemove := [], hitUFOs := [] } : PassOut α β) u
        = ⟨[p.id], [(u.1, u.2)]⟩ := by
      unfold passUfo
      rw [if_neg (by simp)]
      unfold projectileHits at hhit
      rw [if_pos hhit]
      simp
    rw [hfire]
    exact foldUfos_skip p postU _ (by simp)
  unfold collisionPass
  rw [List.foldl_append,
    foldProjs_nofire ufos preP _ (fun q hq => hnohit q (Or.inl hq)),
    List.foldl_cons, hinner,
    foldProjs_nofire ufos postP _ (fun q hq => hnohit q (Or.inr hq))]

/-- C1: per-tick hit resolution of the WeaponSystem collision pass.  First
part: when exactly one projectile is within hit range of exactly one live
adversary, the pass produces exactly one hit event carrying that adversary and
its position, marks exactly that projectile for removal (so the surviving
projectiles are all the others), the deferred deliveries remove exactly that
adversary, and the score rises by exactly 100.  Second part: when two distinct
projectiles are simultaneously in range of the same adversary (and no other
adversary is in range of anything), the pass still produces exactly one hit
event and the score rises by 100, not 200. -/
theorem c1_hit_resolution :
    (∀ (projectiles : List (ProjectileDataT String)) (ufos : List (String × Vector3))
        (p : ProjectileDataT String) (u : String × Vector3) (score : ℤ),
      (projectiles.map (fun q => q.id)).Nodup →
      (ufos.map Prod.fst).Nodup →
      p ∈ projectiles → u ∈ ufos →
      projectileHits p u →
      (∀ q ∈ projectiles, ∀ v ∈ ufos, projectileHits q v → q = p ∧ v = u) →
      (collisionPass projectiles ufos).hitUFOs = [(u.1, u.2)] ∧
      (collisionPass projectiles ufos).projectilesToRemove = [p.id] ∧
      projectiles.filter
          (fun q => ¬ q.id ∈ (collisionPass projectiles ufos).projectilesToRemove)
        = projectiles.filter (fun q => ¬ q.id = p.id) ∧
      applyHitsUfos ufos (collisionPass projectiles ufos).hitUFOs
        = ufos.filter (fun v => ¬ v.1 = u.1) ∧
      applyHitsScore score (collisionPass projectiles ufos).hitUFOs = score + 100) ∧
    (∀ (projectiles : List (ProjectileDataT String)) (ufos : List (String × Vector3))
        (p1 p2 : ProjectileDataT String) (u : String × Vector3) (score : ℤ),
      p1 ∈ projectiles → p2 ∈ projectiles → ¬ p1.id = p2.id →
      u ∈ ufos →
      projectileHits p1 u → projectileHits p2 u →
      (∀ q ∈ projectiles, ∀ v ∈ ufos, projectileHits q v → v = u) →
      (collisionPass projectiles ufos).hitUFOs = [(u.1, u.2)] ∧
      applyHitsScore score (collisionPass projectiles ufos).hitUFOs = score + 100) := by
  constructor
  · intro projectiles ufos p u score hnp hnu hp hu hhit huniq
    have hpass := collisionPass_unique_pair projectiles ufos p u hnp hnu hp hu hhit huniq
    rw [hpass]
    refine ⟨rfl, rfl, ?_, ?_, ?_⟩
    · refine List.filter_congr ?_
      intro q _
      simp
    · rfl
    · rfl
  · intro projectiles ufos p1 p2 u score hp1 hp2 hne hu hhit1 hhit2 honly
    have hsub := foldProjs_hits_sub u projectiles ufos
      { projectilesToRemove := [], hitUFOs := [] } honly
    have hne2 := foldProjs_fire_nonempty projectiles ufos
      { projectilesToRemove := [], hitUFOs := [] } p1 u hp1 hu hhit1 rfl
    unfold collisionPass
    rcases hsub with hcase | hcase
    · exact absurd hcase hne2
    · rw [hcase.2]
      exact ⟨rfl, rfl⟩

/-- Witness for C1 at a concrete input: one projectile 1 unit from the single
live adversary (scenario one), and two projectiles both in range of the same
single adversary (scenario two), from score 0. -/
theorem c1_witness :
    (collisionPass [⟨"p1", ⟨0, 0, 0⟩, ⟨0, 0, -1⟩⟩]
        [("u1", (⟨1, 0, 0⟩ : Vector3))]).hitUFOs = [("u1", (⟨1, 0, 0⟩ : Vector3))] ∧
    applyHitsScore 0 (collisionPass [⟨"p1", ⟨0, 0, 0⟩, ⟨0, 0, -1⟩⟩]
        [("u1", (⟨1, 0, 0⟩ : Vector3))]).hitUFOs = 0 + 100 ∧
    (collisionPass
        [⟨"p1", ⟨0, 0, 0⟩, ⟨0, 0, -1⟩⟩, ⟨"p2", ⟨2, 0, 0⟩, ⟨0, 0, -1⟩⟩]
        [("u1", (⟨1, 0, 0⟩ : Vector3))]).hitUFOs = [("u1", (⟨1, 0, 0⟩ : Vector3))] ∧
    applyHitsScore 0 (collisionPass
        [⟨"p1", ⟨0, 0, 0⟩, ⟨0, 0, -1⟩⟩, ⟨"p2", ⟨2, 0, 0⟩, ⟨0, 0, -1⟩⟩]
        [("u1", (⟨1, 0, 0⟩ : Vector3))]).hitUFOs = 0 + 100 := by
  have hdist1 : projectileHits (⟨"p1", ⟨0, 0, 0⟩, ⟨0, 0, -1⟩⟩ : ProjectileDataT String)
      (("u1", (⟨1, 0, 0⟩ : Vector3))) := by
    unfold projectileHits Vector3.distanceTo Vector3.distanceToSquared
      PROJECTILE_RADIUS UFO_RADIUS
    simp only
    rw [show ((0:ℝ) - 1) * ((0:ℝ) - 1) + (0 - 0) * (0 - 0) + (0 - 0) * (0 - 0) = 1 by ring]
    rw [Real.sqrt_one]
    norm_num
  have hdist2 : projectileHits (⟨"p2", ⟨2, 0, 0⟩, ⟨0, 0, -1⟩⟩ : ProjectileDataT String)
      (("u1", (⟨1, 0, 0⟩ : Vector3))) := by
    unfold projectileHits Vector3.distanceTo Vector3.distanceToSquared
      PROJECTILE_RADIUS UFO_RADIUS
    simp only
    rw [show ((2:ℝ) - 1) * ((2:ℝ) - 1) + (0 - 0) * (0 - 0) + (0 - 0) * (0 - 0) = 1 by ring]
    rw [Real.sqrt_one]
    norm_num
  have hA := c1_hit_resolution.1 [⟨"p1", ⟨0, 0, 0⟩, ⟨0, 0, -1⟩⟩]
    [("u1", (⟨1, 0, 0⟩ : Vector3))] ⟨"p1", ⟨0, 0, 0⟩, ⟨0, 0, -1⟩⟩
    ("u1", (⟨1, 0, 0⟩ : Vector3)) 0
    (by simp) (by simp) (by simp) (by simp) hdist1
    (by
      intro q hq v hv _
      simp only [List.mem_singleton] at hq hv
      exact ⟨hq, hv⟩)
  have hB := c1_hit_resolution.2
    [⟨"p1", ⟨0, 0, 0⟩, ⟨0, 0, -1⟩⟩, ⟨"p2", ⟨2, 0, 0⟩, ⟨0, 0, -1⟩⟩]
    [("u1", (⟨1, 0, 0⟩ : Vector3))]
    ⟨"p1", ⟨0, 0, 0⟩, ⟨0, 0, -1⟩⟩ ⟨"p2", ⟨2, 0, 0⟩, ⟨0, 0, -1⟩⟩
    ("u1", (⟨1, 0, 0⟩ : Vector3)) 0
    (by simp) (by simp) (by simp) (by simp) hdist1 hdist2
    (by
      intro q hq v hv _
      simp only [List.mem_singleton] at hv
      exact hv)
  exact ⟨hA.1, hA.2.2.2.2, hB.1, hB.2⟩

/-- The key state with only `d` (roll right) pressed. -/
def kD : Keys := ⟨false, false, false, true, false, false⟩

/-- The key state with `w` (pitch) and `d` (roll right) pressed. -/
def kWD : Keys := ⟨true, false, false, true, false, false⟩

theorem inputPitch_kD : inputPitch kD = 0 := by
  simp [inputPitch, kD]

theorem inputRoll_kD : inputRoll kD = 1 := by
  simp [inputRoll, kD]

theorem inputSpeed_kD : inputSpeed kD = 0 := by
  simp [inputSpeed, kD]

theorem inputPitch_kWD : inputPitch kWD = 1 := by
  simp [inputPitch, kWD]

theorem inputRoll_kWD : inputRoll kWD = 1 := by
  simp [inputRoll, kWD]

theorem inputSpeed_kWD : inputSpeed kWD = 0 := by
  simp [inputSpeed, kWD]

theorem clampedDelta_of_le {delta : ℝ} (h : delta ≤ 1 / 10) :
    clampedDelta delta = delta := by
  unfold clampedDelta
  exact min_eq_left (by norm_num [h])

/-- One physics tick with only `d` pressed, while level (pitch 0), at speed 30,
above the ground, with no collision pending: the pitch stays 0, the roll clamps
to the given value `r2`, the yaw drops by `r2 * 1.5 * delta`, and the altitude
is unchanged. -/
theorem tick_d_eval (s : PlaneState) (delta now : ℝ) (h0 : 0 < delta)
    (h1 : delta ≤ 1 / 10) (hc : s.isColliding = false) (hpz : s.pitch = 0)
    (hsp : s.speed = 30) (hy3 : 3 ≤ s.position.y)
    (hyl0 : -Real.pi ≤ s.yaw) (hyu0 : s.yaw ≤ 0) (r2 : ℝ)
    (hr2 : MathUtils.clamp (s.roll + 2 * delta) (-MAX_ROLL_ANGLE) MAX_ROLL_ANGLE = r2)
    (hr2nn : 0 ≤ r2)
    (hyl1 : -Real.pi ≤ s.yaw - r2 * (3 / 2) * delta) :
    (planeTick [] s kD delta now).pitch = 0 ∧
    (planeTick [] s kD delta now).roll = r2 ∧
    (planeTick [] s kD delta now).yaw = s.yaw - r2 * (3 / 2) * delta ∧
    (planeTick [] s kD delta now).speed = 30 ∧
    (planeTick [] s kD delta now).isColliding = false ∧
    (planeTick [] s kD delta now).position.y = s.position.y := by
  have hpi := Real.pi_pos
  have hcd : clampedDelta delta = delta := clampedDelta_of_le h1
  have hpIn : inputPitch kD * PITCH_SENSITIVITY * clampedDelta delta = 0 := by
    rw [inputPitch_kD]
    ring
  have hrIn : inputRoll kD * ROLL_SENSITIVITY * clampedDelta delta ≠ 0 := by
    rw [inputRoll_kD, hcd]
    rw [show (1 : ℝ) * ROLL_SENSITIVITY * delta = 2 * delta by
      unfold ROLL_SENSITIVITY; norm_num]
    exact ne_of_gt (by linarith)
  have hpitch : tickPitch s kD delta = 0 := by
    rw [tickPitch_of_eq hpIn, hpz]
    unfold MathUtils.lerp
    ring
  have hroll : tickRoll s kD delta = r2 := by
    rw [tickRoll_of_ne hrIn, inputRoll_kD, hcd]
    rw [show s.roll + 1 * ROLL_SENSITIVITY * delta = s.roll + 2 * delta by
      unfold ROLL_SENSITIVITY; norm_num]
    exact hr2
  have hyawmul : 0 ≤ r2 * (3 / 2) * delta := by positivity
  have hyaw : tickYaw s kD delta = s.yaw - r2 * (3 / 2) * delta := by
    rw [tickYaw_of_ne hrIn, hroll, hcd,
      normalizeAngle_of_mem hyl0 (by linarith)]
    have h15 : (TURN_SENSITIVITY : ℝ) = 3 / 2 := by unfold TURN_SENSITIVITY; norm_num
    rw [show s.yaw + -r2 * TURN_SENSITIVITY * delta = s.yaw - r2 * (3 / 2) * delta by
      rw [h15]; ring]
    exact normalizeAngle_of_mem hyl1 (by linarith)
  have hspeed : tickNewSpeed s kD delta = 30 := by
    unfold tickNewSpeed
    rw [inputSpeed_kD, hsp]
    rw [show (30 : ℝ) + 0 * ACCELERATION * clampedDelta delta = 30 by ring]
    unfold MathUtils.clamp MIN_SPEED MAX_SPEED
    norm_num
  have hcy : (candidatePosition s kD delta).y = s.position.y := by
    rw [candidatePosition_eval]
    simp only
    rw [hpitch, Real.sin_zero]
    ring
  have hg : checkGroundCollision (candidatePosition s kD delta) = false := by
    unfold checkGroundCollision
    apply decide_eq_false
    rw [hcy]
    unfold PLANE_COLLISION_RADIUS GROUND_LEVEL
    intro hlt
    linarith
  have hbld : checkBuildingCollisions [] (candidatePosition s kD delta) = false := rfl
  have htick : planeTick [] s kD delta now = tickMove s kD delta := by
    unfold planeTick
    rw [hc]
    simp [hg, hbld]
  rw [htick]
  exact ⟨hpitch, hroll, hyaw, hspeed, hc, hcy⟩

/-- One physics tick with `w` and `d` pressed at speed 30 with no collision
pending: the pitch clamps to the given `p2`, the roll clamps to the given `r2`,
the yaw drops by `r2 * 1.5 * delta`, and the altitude moves by
`sin(p2) * 30 * delta` (hypothesis `hy3` keeps the tick above ground). -/
theorem tick_wd_eval (s : PlaneState) (delta now : ℝ) (h0 : 0 < delta)
    (h1 : delta ≤ 1 / 10) (hc : s.isColliding = false) (hsp : s.speed = 30)
    (hyl0 : -Real.pi ≤ s.yaw) (hyu0 : s.yaw ≤ 0) (p2 r2 : ℝ)
    (hp2 : MathUtils.clamp (s.pitch + (4 / 5) * delta) (-MAX_PITCH_ANGLE) MAX_PITCH_ANGLE
      = p2)
    (hr2 : MathUtils.clamp (s.roll + 2 * delta) (-MAX_ROLL_ANGLE) MAX_ROLL_ANGLE = r2)
    (hr2nn : 0 ≤ r2)
    (hyl1 : -Real.pi ≤ s.yaw - r2 * (3 / 2) * delta)
    (hy3 : 3 ≤ s.position.y + Real.sin p2 * (30 * delta)) :
    (planeTick [] s kWD delta now).pitch = p2 ∧
    (planeTick [] s kWD delta now).roll = r2 ∧
    (planeTick [] s kWD delta now).yaw = s.yaw - r2 * (3 / 2) * delta ∧
    (planeTick [] s kWD delta now).speed = 30 ∧
    (planeTick [] s kWD delta now).isColliding = false ∧
    (planeTick [] s kWD delta now).position.y
      = s.position.y + Real.sin p2 * (30 * delta) := by
  have hpi := Real.pi_pos
  have hcd : clampedDelta delta = delta := clampedDelta_of_le h1
  have hpIn : inputPitch kWD * PITCH_SENSITIVITY * clampedDelta delta ≠ 0 := by
    rw [inputPitch_kWD, hcd]
    rw [show (1 : ℝ) * PITCH_SENSITIVITY * delta = (4 / 5) * delta by
      unfold PITCH_SENSITIVITY; norm_num]
    exact ne_of_gt (by linarith)
  have hrIn : inputRoll kWD * ROLL_SENSITIVITY * clampedDelta delta ≠ 0 := by
    rw [inputRoll_kWD, hcd]
    rw [show (1 : ℝ) * ROLL_SENSITIVITY * delta = 2 * delta by
      unfold ROLL_SENSITIVITY; norm_num]
    exact ne_of_gt (by linarith)
  have hpitch : tickPitch s kWD delta = p2 := by
    rw [tickPitch_of_ne hpIn, inputPitch_kWD, hcd]
    rw [show s.pitch + 1 * PITCH_SENSITIVITY * delta = s.pitch + (4 / 5) * delta by
      unfold PITCH_SENSITIVITY; norm_num]
    exact hp2
  have hroll : tickRoll s kWD delta = r2 := by
    rw [tickRoll_of_ne hrIn, inputRoll_kWD, hcd]
    rw [show s.roll + 1 * ROLL_SENSITIVITY * delta = s.roll + 2 * delta by
      unfold ROLL_SENSITIVITY; norm_num]
    exact hr2
  have hyawmul : 0 ≤ r2 * (3 / 2) * delta := by positivity
  have hyaw : tickYaw s kWD delta = s.yaw - r2 * (3 / 2) * delta := by
    rw [tickYaw_of_ne hrIn, hroll, hcd,
      normalizeAngle_of_mem hyl0 (by linarith)]
    have h15 : (TURN_SENSITIVITY : ℝ) = 3 / 2 := by unfold TURN_SENSITIVITY; norm_num
    rw [show s.yaw + -r2 * TURN_SENSITIVITY * delta = s.yaw - r2 * (3 / 2) * delta by
      rw [h15]; ring]
    exact normalizeAngle_of_mem hyl1 (by linarith)
  have hspeed : tickNewSpeed s kWD delta = 30 := by
    unfold tickNewSpeed
    rw [inputSpeed_kWD, hsp]
    rw [show (30 : ℝ) + 0 * ACCELERATION * clampedDelta delta = 30 by ring]
    unfold MathUtils.clamp MIN_SPEED MAX_SPEED
    norm_num
  have hcy : (candidatePosition s kWD delta).y
      = s.position.y + Real.sin p2 * (30 * delta) := by
    rw [candidatePosition_eval]
    simp only
    rw [hpitch, hspeed, hcd]
  have hg : checkGroundCollision (candidatePosition s kWD delta) = false := by
    unfold checkGroundCollision
    apply decide_eq_false
    rw [hcy]
    unfold PLANE_COLLISION_RADIUS GROUND_LEVEL
    intro hlt
    linarith
  have hbld : checkBuildingCollisions [] (candidatePosition s kWD delta) = false := rfl
  have htick : planeTick [] s kWD delta now = tickMove s kWD delta := by
    unfold planeTick
    rw [hc]
    simp [hg, hbld]
  rw [htick]
  exact ⟨hpitch, hroll, hyaw, hspeed, hc, hcy⟩

theorem planeRun_nil (reg : Registry) (s : PlaneState) : planeRun reg s [] = s := rfl

theorem planeRun_cons (reg : Registry) (s : PlaneState) (t : TickInput)
    (ts : List TickInput) :
    planeRun reg s (t :: ts) = planeRun reg (planeTick reg s t.keys t.delta t.now) ts :=
  rfl

theorem planeRun_append (reg : Registry) (s : PlaneState) (l1 l2 : List TickInput) :
    planeRun reg s (l1 ++ l2) = planeRun reg (planeRun reg s l1) l2 := by
  unfold planeRun
  exact List.foldl_append _ _ l1 l2

/-- A block of `n` frames holding only `d` at delta 0.1 while banked at the
roll limit `pi/4`, level and at speed 30: each frame turns the yaw by
`-3 pi/80` and changes nothing else relevant. -/
theorem steady_run (n : ℕ) :
    ∀ s : PlaneState, s.pitch = 0 → s.roll = Real.pi / 4 → s.speed = 30 →
      s.isColliding = false → 3 ≤ s.position.y → s.yaw ≤ 0 →
      -Real.pi ≤ s.yaw - n * (3 * Real.pi / 80) →
      (planeRun [] s (List.replicate n ⟨kD, 1 / 10, 0⟩)).pitch = 0 ∧
      (planeRun [] s (List.replicate n ⟨kD, 1 / 10, 0⟩)).roll = Real.pi / 4 ∧
      (planeRun [] s (List.replicate n ⟨kD, 1 / 10, 0⟩)).speed = 30 ∧
      (planeRun [] s (List.replicate n ⟨kD, 1 / 10, 0⟩)).isColliding = false ∧
      (planeRun [] s (List.replicate n ⟨kD, 1 / 10, 0⟩)).position.y = s.position.y ∧
      (planeRun [] s (List.replicate n ⟨kD, 1 / 10, 0⟩)).yaw
        = s.yaw - n * (3 * Real.pi / 80) := by
  induction n with
  | zero =>
    intro s h1 h2 h3 h4 h5 h6 h7
    rw [List.replicate_zero, planeRun_nil]
    refine ⟨h1, h2, h3, h4, rfl, ?_⟩
    simp
  | succ n ih =>
    intro s h1 h2 h3 h4 h5 h6 h7
    have hpi := Real.pi_pos
    have hstep_nn : (0:ℝ) ≤ 3 * Real.pi / 80 := by positivity
    have hn_nn : (0:ℝ) ≤ (n : ℝ) := Nat.cast_nonneg n
    have h7c : -Real.pi ≤ s.yaw - ((n : ℝ) + 1) * (3 * Real.pi / 80) := by
      push_cast at h7
      linarith [h7]
    have hclamp : MathUtils.clamp (s.roll + 2 * (1 / 10)) (-MAX_ROLL_ANGLE)
        MAX_ROLL_ANGLE = Real.pi / 4 := by
      rw [h2]
      unfold MathUtils.clamp MAX_ROLL_ANGLE
      rw [min_eq_left (by linarith), max_eq_right (by linarith)]
    have hyl1 : -Real.pi ≤ s.yaw - Real.pi / 4 * (3 / 2) * (1 / 10) := by
      have he : Real.pi / 4 * (3 / 2) * (1 / 10) = 3 * Real.pi / 80 := by ring
      rw [he]
      nlinarith [mul_nonneg hn_nn hstep_nn]
    have hyl0 : -Real.pi ≤ s.yaw := by
      nlinarith [mul_nonneg (by linarith [hn_nn] : (0:ℝ) ≤ (n : ℝ) + 1) hstep_nn]
    have step := tick_d_eval s (1 / 10) 0 (by norm_num) (by norm_num) h4 h1 h3 h5
      hyl0 h6 (Real.pi / 4) hclamp (by positivity) hyl1
    obtain ⟨sp, sr, sy, sv, sc, spy⟩ := step
    rw [List.replicate_succ, planeRun_cons]
    have hkeys : (⟨kD, 1 / 10, 0⟩ : TickInput).keys = kD := rfl
    have hdelta : (⟨kD, 1 / 10, 0⟩ : TickInput).delta = 1 / 10 := rfl
    have hnow : (⟨kD, 1 / 10, 0⟩ : TickInput).now = 0 := rfl
    rw [hkeys, hdelta, hnow]
    have hystep : (planeTick [] s kD (1 / 10) 0).yaw - (n : ℝ) * (3 * Real.pi / 80)
        = s.yaw - ((n : ℝ) + 1) * (3 * Real.pi / 80) := by
      rw [sy]
      ring
    have ihres := ih (planeTick [] s kD (1 / 10) 0) sp sr sv sc
      (by rw [spy]; exact h5)
      (by rw [sy]; nlinarith [hstep_nn])
      (by rw [hystep]; exact h7c)
    refine ⟨ihres.1, ihres.2.1, ihres.2.2.1, ihres.2.2.2.1, ?_, ?_⟩
    · rw [ihres.2.2.2.2.1, spy]
    · rw [ihres.2.2.2.2.2, hystep]
      push_cast
      ring

/-- The delta of the final frame of the C5 run, chosen so that the banked turn
lands the yaw exactly on -pi.  It lies in (0, 0.1], so the frame clamp keeps
it. -/
def c5FinalDelta : ℝ := 4 / 15 - 109 / (200 * Real.pi)

/-- The 29-frame input sequence of the C5 counterexample: two frames pressing
w+d (leveling the pitch to exactly 0 and starting the bank), three more d
frames driving the roll to its clamp at pi/4, 23 steady banked frames, and one
final partial frame. -/
def c5Inputs : List TickInput :=
  [⟨kWD, 1 / 10, 0⟩, ⟨kWD, 1 / 40, 0⟩, ⟨kD, 1 / 10, 0⟩, ⟨kD, 1 / 10, 0⟩,
    ⟨kD, 1 / 10, 0⟩] ++ List.replicate 23 ⟨kD, 1 / 10, 0⟩ ++ [⟨kD, c5FinalDelta, 0⟩]

/-- The intermediate states of the C5 run. -/
def c5t1 : PlaneState := planeTick [] initPlaneState kWD (1 / 10) 0

def c5t2 : PlaneState := planeTick [] c5t1 kWD (1 / 40) 0

def c5t3 : PlaneState := planeTick [] c5t2 kD (1 / 10) 0

def c5t4 : PlaneState := planeTick [] c5t3 kD (1 / 10) 0

def c5t5 : PlaneState := planeTick [] c5t4 kD (1 / 10) 0

def c5t28 : PlaneState := planeRun [] c5t5 (List.replicate 23 ⟨kD, 1 / 10, 0⟩)

def c5t29 : PlaneState := planeTick [] c5t28 kD c5FinalDelta 0

theorem c5_run_eq : planeRun [] initPlaneState c5Inputs = c5t29 := by
  unfold c5Inputs c5t29 c5t28 c5t5 c5t4 c5t3 c5t2 c5t1
  rw [planeRun_append, planeRun_append]
  rfl

set_option maxHeartbeats 1600000 in
/-- C5 (counterexample to the claim as stated): a concrete 29-frame run from
the initial state — two w+d frames which land the pitch exactly on 0, three d
frames driving the roll to its clamp pi/4, 23 steady banked frames, and one
final frame of duration `4/15 - 109/(200 pi)` (which is within (0, 0.1]) —
leaves the stored yaw EXACTLY at -pi, which is outside the claimed half-open
interval (-pi, pi]. -/
theorem c5_counterexample :
    (planeRun [] initPlaneState c5Inputs).yaw = -Real.pi ∧
    ¬ (-Real.pi < (planeRun [] initPlaneState c5Inputs).yaw ∧
        (planeRun [] initPlaneState c5Inputs).yaw ≤ Real.pi) := by
  have hpi3 : (3 : ℝ) < Real.pi := Real.pi_gt_three
  have hpi315 : Real.pi < 3.15 := Real.pi_lt_d2
  have hpi0 : (0 : ℝ) < Real.pi := Real.pi_pos
  -- frame 1: w+d at delta 0.1 from the initial state
  have hp2_1 : MathUtils.clamp (initPlaneState.pitch + (4 / 5) * (1 / 10))
      (-MAX_PITCH_ANGLE) MAX_PITCH_ANGLE = -(1 / 50) := by
    rw [show initPlaneState.pitch + (4 / 5) * (1 / 10) = -(1 / 50) by
      norm_num [initPlaneState]]
    unfold MathUtils.clamp MAX_PITCH_ANGLE
    rw [min_eq_right (by linarith), max_eq_right (by linarith)]
  have hr2_1 : MathUtils.clamp (initPlaneState.roll + 2 * (1 / 10)) (-MAX_ROLL_ANGLE)
      MAX_ROLL_ANGLE = 1 / 5 := by
    rw [show initPlaneState.roll + 2 * (1 / 10) = 1 / 5 by norm_num [initPlaneState]]
    unfold MathUtils.clamp MAX_ROLL_ANGLE
    rw [min_eq_right (by linarith), max_eq_right (by linarith)]
  have hyaw0 : initPlaneState.yaw = 0 := rfl
  have hpos0 : initPlaneState.position.y = 30 := rfl
  have step1 := tick_wd_eval initPlaneState (1 / 10) 0 (by norm_num) (by norm_num)
    rfl rfl (by rw [hyaw0]; linarith) (by rw [hyaw0]) (-(1 / 50)) (1 / 5)
    hp2_1 hr2_1 (by norm_num) (by rw [hyaw0]; linarith)
    (by rw [hpos0]; nlinarith [Real.neg_one_le_sin (-(1 / 50))])
  have p1 : c5t1.pitch = -(1 / 50) := step1.1
  have r1 : c5t1.roll = 1 / 5 := step1.2.1
  have v1 : c5t1.speed = 30 := step1.2.2.2.1
  have cc1 : c5t1.isColliding = false := step1.2.2.2.2.1
  have yaw1 : c5t1.yaw = -(3 / 100) := by
    have := step1.2.2.1
    rw [hyaw0] at this
    rw [show c5t1.yaw = initPlaneState.yaw - 1 / 5 * (3 / 2) * (1 / 10) from
      step1.2.2.1, hyaw0]
    norm_num
  have hy1 : 3 ≤ c5t1.position.y := by
    rw [show c5t1.position.y
        = initPlaneState.position.y + Real.sin (-(1 / 50)) * (30 * (1 / 10)) from
      step1.2.2.2.2.2, hpos0]
    nlinarith [Real.neg_one_le_sin (-(1 / 50))]
  -- frame 2: w+d at delta 1/40, landing the pitch exactly on 0
  have hp2_2 : MathUtils.clamp (c5t1.pitch + (4 / 5) * (1 / 40)) (-MAX_PITCH_ANGLE)
      MAX_PITCH_ANGLE = 0 := by
    rw [p1, show (-(1 / 50) : ℝ) + (4 / 5) * (1 / 40) = 0 by norm_num]
    unfold MathUtils.clamp MAX_PITCH_ANGLE
    rw [min_eq_right (by linarith), max_eq_right (by linarith)]
  have hr2_2 : MathUtils.clamp (c5t1.roll + 2 * (1 / 40)) (-MAX_ROLL_ANGLE)
      MAX_ROLL_ANGLE = 1 / 4 := by
    rw [r1, show (1 / 5 : ℝ) + 2 * (1 / 40) = 1 / 4 by norm_num]
    unfold MathUtils.clamp MAX_ROLL_ANGLE
    rw [min_eq_right (by linarith), max_eq_right (by linarith)]
  have step2 := tick_wd_eval c5t1 (1 / 40) 0 (by norm_num) (by norm_num) cc1 v1
    (by rw [yaw1]; linarith) (by rw [yaw1]; linarith) 0 (1 / 4) hp2_2 hr2_2
    (by norm_num) (by rw [yaw1]; linarith)
    (by rw [Real.sin_zero]; ring_nf; linarith [hy1])
  have p2 : c5t2.pitch = 0 := step2.1
  have r2f : c5t2.roll = 1 / 4 := step2.2.1
  have v2 : c5t2.speed = 30 := step2.2.2.2.1
  have cc2 : c5t2.isColliding = false := step2.2.2.2.2.1
  have yaw2 : c5t2.yaw = -(63 / 1600) := by
    rw [show c5t2.yaw = c5t1.yaw - 1 / 4 * (3 / 2) * (1 / 40) from step2.2.2.1, yaw1]
    norm_num
  have hy2 : 3 ≤ c5t2.position.y := by
    rw [show c5t2.position.y = c5t1.position.y + Real.sin 0 * (30 * (1 / 40)) from
      step2.2.2.2.2.2, Real.sin_zero]
    linarith [hy1]
  -- frame 3: d at delta 0.1, roll 9/20
  have hr2_3 : MathUtils.clamp (c5t2.roll + 2 * (1 / 10)) (-MAX_ROLL_ANGLE)
      MAX_ROLL_ANGLE = 9 / 20 := by
    rw [r2f, show (1 / 4 : ℝ) + 2 * (1 / 10) = 9 / 20 by norm_num]
    unfold MathUtils.clamp MAX_ROLL_ANGLE
    rw [min_eq_right (by linarith), max_eq_right (by linarith)]
  have step3 := tick_d_eval c5t2 (1 / 10) 0 (by norm_num) (by norm_num) cc2 p2 v2 hy2
    (by rw [yaw2]; linarith) (by rw [yaw2]; linarith) (9 / 20) hr2_3 (by norm_num)
    (by rw [yaw2]; linarith)
  have p3 : c5t3.pitch = 0 := step3.1
  have r3 : c5t3.roll = 9 / 20 := step3.2.1
  have v3 : c5t3.speed = 30 := step3.2.2.2.1
  have cc3 : c5t3.isColliding = false := step3.2.2.2.2.1
  have yaw3 : c5t3.yaw = -(171 / 1600) := by
    rw [show c5t3.yaw = c5t2.yaw - 9 / 20 * (3 / 2) * (1 / 10) from step3.2.2.1, yaw2]
    norm_num
  have hy3b : 3 ≤ c5t3.position.y := by
    rw [show c5t3.position.y = c5t2.position.y from step3.2.2.2.2.2]
    exact hy2
  -- frame 4: d at delta 0.1, roll 13/20
  have hr2_4 : MathUtils.clamp (c5t3.roll + 2 * (1 / 10)) (-MAX_ROLL_ANGLE)
      MAX_ROLL_ANGLE = 13 / 20 := by
    rw [r3, show (9 / 20 : ℝ) + 2 * (1 / 10) = 13 / 20 by norm_num]
    unfold MathUtils.clamp MAX_ROLL_ANGLE
    rw [min_eq_right (by linarith), max_eq_right (by linarith)]
  have step4 := tick_d_eval c5t3 (1 / 10) 0 (by norm_num) (by norm_num) cc3 p3 v3 hy3b
    (by rw [yaw3]; linarith) (by rw [yaw3]; linarith) (13 / 20) hr2_4 (by norm_num)
    (by rw [yaw3]; linarith)
  have p4 : c5t4.pitch = 0 := step4.1
  have r4 : c5t4.roll = 13 / 20 := step4.2.1
  have v4 : c5t4.speed = 30 := step4.2.2.2.1
  have cc4 : c5t4.isColliding = false := step4.2.2.2.2.1
  have yaw4 : c5t4.yaw = -(327 / 1600) := by
    rw [show c5t4.yaw = c5t3.yaw - 13 / 20 * (3 / 2) * (1 / 10) from step4.2.2.1, yaw3]
    norm_num
  have hy4 : 3 ≤ c5t4.position.y := by
    rw [show c5t4.position.y = c5t3.position.y from step4.2.2.2.2.2]
    exact hy3b
  -- frame 5: d at delta 0.1, roll clamps to pi/4
  have hr2_5 : MathUtils.clamp (c5t4.roll + 2 * (1 / 10)) (-MAX_ROLL_ANGLE)
      MAX_ROLL_ANGLE = Real.pi / 4 := by
    rw [r4, show (13 / 20 : ℝ) + 2 * (1 / 10) = 17 / 20 by norm_num]
    unfold MathUtils.clamp MAX_ROLL_ANGLE
    rw [min_eq_left (by linarith), max_eq_right (by linarith)]
  have step5 := tick_d_eval c5t4 (1 / 10) 0 (by norm_num) (by norm_num) cc4 p4 v4 hy4
    (by rw [yaw4]; linarith) (by rw [yaw4]; linarith) (Real.pi / 4) hr2_5
    (by positivity) (by rw [yaw4]; linarith)
  have p5 : c5t5.pitch = 0 := step5.1
  have r5 : c5t5.roll = Real.pi / 4 := step5.2.1
  have v5 : c5t5.speed = 30 := step5.2.2.2.1
  have cc5 : c5t5.isColliding = false := step5.2.2.2.2.1
  have yaw5 : c5t5.yaw = -(327 / 1600) - 3 * Real.pi / 80 := by
    rw [show c5t5.yaw = c5t4.yaw - Real.pi / 4 * (3 / 2) * (1 / 10) from
      step5.2.2.1, yaw4]
    ring
  have hy5 : 3 ≤ c5t5.position.y := by
    rw [show c5t5.position.y = c5t4.position.y from step5.2.2.2.2.2]
    exact hy4
  -- frames 6..28: 23 steady banked frames
  have steady := steady_run 23 c5t5 p5 r5 v5 cc5 hy5
    (by rw [yaw5]; linarith)
    (by rw [yaw5]; push_cast; linarith)
  have p28 : c5t28.pitch = 0 := steady.1
  have r28 : c5t28.roll = Real.pi / 4 := steady.2.1
  have v28 : c5t28.speed = 30 := steady.2.2.1
  have cc28 : c5t28.isColliding = false := steady.2.2.2.1
  have hy28 : 3 ≤ c5t28.position.y := by
    rw [show c5t28.position.y = c5t5.position.y from steady.2.2.2.2.1]
    exact hy5
  have yaw28 : c5t28.yaw = -(327 / 1600) - 9 * Real.pi / 10 := by
    rw [show c5t28.yaw = c5t5.yaw - (23 : ℕ) * (3 * Real.pi / 80) from
      steady.2.2.2.2.2, yaw5]
    push_cast
    ring
  -- the final frame
  have h200 : (0 : ℝ) < 200 * Real.pi := by positivity
  have hdpos : 0 < c5FinalDelta := by
    unfold c5FinalDelta
    have hd : 109 / (200 * Real.pi) < 4 / 15 := by
      rw [div_lt_iff₀ h200]
      linarith only [hpi3]
    linarith
  have hdle : c5FinalDelta ≤ 1 / 10 := by
    unfold c5FinalDelta
    have hd : (1 : ℝ) / 6 ≤ 109 / (200 * Real.pi) := by
      rw [le_div_iff₀ h200]
      linarith only [hpi315]
    linarith
  have hr2_29 : MathUtils.clamp (c5t28.roll + 2 * c5FinalDelta) (-MAX_ROLL_ANGLE)
      MAX_ROLL_ANGLE = Real.pi / 4 := by
    rw [r28]
    unfold MathUtils.clamp MAX_ROLL_ANGLE
    rw [min_eq_left (by linarith), max_eq_right (by linarith)]
  have hyfinal : c5t28.yaw - Real.pi / 4 * (3 / 2) * c5FinalDelta = -Real.pi := by
    rw [yaw28]
    unfold c5FinalDelta
    have hpne : Real.pi ≠ 0 := ne_of_gt hpi0
    field_simp
    ring
  have step29 := tick_d_eval c5t28 c5FinalDelta 0 hdpos hdle cc28 p28 v28 hy28
    (by rw [yaw28]; linarith) (by rw [yaw28]; linarith) (Real.pi / 4) hr2_29
    (by positivity) (le_of_eq hyfinal.symm)
  have yaw29 : c5t29.yaw = -Real.pi := by
    rw [show c5t29.yaw = c5t28.yaw - Real.pi / 4 * (3 / 2) * c5FinalDelta from
      step29.2.2.1]
    exact hyfinal
  rw [c5_run_eq]
  refine ⟨yaw29, ?_⟩
  rw [yaw29]
  intro hcon
  exact lt_irrefl _ hcon.1

end Claims

end
